import Mathlib

/-!
Verification of the pp-stream HLS proxy (src/routes/m3u8-proxy.ts,
src/routes/ts-proxy.ts and the unnamed ts-proxy variants).

JavaScript strings are modelled as `List Char`.  The WHATWG `URL` class,
`encodeURIComponent` / `decodeURIComponent`, `JSON.parse` validity and
`String.prototype.replace` are platform primitives used by the code; they are
modelled here as executable Lean functions faithful to their standard
behaviour on the fragments the code exercises.
-/

set_option maxRecDepth 100000

namespace PPStream

/-- JavaScript strings are lists of (unicode scalar) characters. -/
abbrev Str := List Char

/-- Model of `String.prototype.startsWith`. -/
def hasPfx : Str → Str → Bool
  | _, [] => true
  | [], _ :: _ => false
  | c :: t, p :: q => c = p && hasPfx t q

/-- Model of `String.prototype.includes`: does `pat` occur in the string? -/
def containsSub (pat : Str) : Str → Bool
  | [] => hasPfx [] pat
  | c :: t => hasPfx (c :: t) pat || containsSub pat t

/-- Whitespace for `String.prototype.trim` (JS WhiteSpace and LineTerminator). -/
def isWsJS (c : Char) : Bool :=
  c = ' ' || c = Char.ofNat 9 || c = Char.ofNat 10 || c = Char.ofNat 11 ||
  c = Char.ofNat 12 || c = Char.ofNat 13 || c = Char.ofNat 160 ||
  c = Char.ofNat 0x1680 ||
  (0x2000 ≤ c.toNat && c.toNat ≤ 0x200A) ||
  c = Char.ofNat 0x2028 || c = Char.ofNat 0x2029 ||
  c = Char.ofNat 0x202F || c = Char.ofNat 0x205F ||
  c = Char.ofNat 0x3000 || c = Char.ofNat 0xFEFF

/-- Model of `String.prototype.trim`. -/
def trimJS (s : Str) : Str :=
  ((s.dropWhile isWsJS).reverse.dropWhile isWsJS).reverse

/-- Model of `"…".split("\n")` (splitting on a single newline character). -/
def splitNl : Str → List Str
  | [] => [[]]
  | c :: t =>
    match splitNl t with
    | [] => [[]]
    | h :: r => if c = Char.ofNat 10 then [] :: h :: r else (c :: h) :: r

/-- Model of `[…].join("\n")`. -/
def joinNl : List Str → Str
  | [] => []
  | [l] => l
  | l :: l2 :: r => l ++ Char.ofNat 10 :: joinNl (l2 :: r)

/-- Decimal digit character (used to model JS number-to-string coercion). -/
def decDigitC (n : Nat) : Char := ("0123456789".data).getD n 'X'

/-- Auxiliary for `natToStr`, with fuel. -/
def natToStrAux : Nat → Nat → Str
  | 0, _ => []
  | f + 1, n => if n < 10 then [decDigitC n] else natToStrAux f (n / 10) ++ [decDigitC (n % 10)]

/-- Model of `String(n)` for a natural number (decimal digits). -/
def natToStr (n : Nat) : Str := natToStrAux (n + 1) n

/-- First-occurrence split: `some (pre, post)` with the string being
`pre ++ pat ++ post` at the leftmost occurrence of `pat`. -/
def splitAtSub (pat : Str) : Str → Option (Str × Str)
  | [] => if pat = [] then some ([], []) else none
  | c :: t =>
    if hasPfx (c :: t) pat then some ([], (c :: t).drop pat.length)
    else
      match splitAtSub pat t with
      | some (a, b) => some (c :: a, b)
      | none => none

/-- Expansion of `$`-patterns in the replacement string of
`String.prototype.replace` with a string search value
(`$$`, `$&`, dollar-backquote, dollar-quote; anything else is literal). -/
def expandRepl : Str → Str → Str → Str → Str
  | [], _, _, _ => []
  | [c], _, _, _ => [c]
  | c :: d :: t2, pre, pat, post =>
    if c = '$' then
      if d = '$' then '$' :: expandRepl t2 pre pat post
      else if d = '&' then pat ++ expandRepl t2 pre pat post
      else if d = Char.ofNat 96 then pre ++ expandRepl t2 pre pat post
      else if d = Char.ofNat 39 then post ++ expandRepl t2 pre pat post
      else '$' :: d :: expandRepl t2 pre pat post
    else c :: expandRepl (d :: t2) pre pat post

/-- Model of `s.replace(pat, rep)` with a plain-string `pat`:
replace the first occurrence only, expanding `$`-patterns in `rep`. -/
def jsReplace (s pat rep : Str) : Str :=
  match splitAtSub pat s with
  | none => s
  | some (pre, post) => pre ++ expandRepl rep pre pat post ++ post

/-- Model of the first match of the regular expression `URI="([^"]+)"`:
scan left to right; at the first position where `URI="` is followed by a
non-empty run of non-quote characters and a closing quote, capture the run. -/
def extractURI : Str → Option Str
  | [] => none
  | c :: t =>
    let s := c :: t
    if hasPfx s ("URI=\"".data) then
      let after := s.drop 5
      let run := after.takeWhile (fun d => d ≠ Char.ofNat 34)
      let rem := after.dropWhile (fun d => d ≠ Char.ofNat 34)
      if run ≠ [] ∧ rem ≠ [] then some run else extractURI t
    else extractURI t

/-! ### Basic lemmas about the string utilities -/

theorem hasPfx_append (p r : Str) : hasPfx (p ++ r) p = true := by
  induction p with
  | nil => cases r <;> rfl
  | cons c t ih => simp [hasPfx, ih]

theorem hasPfx_of_append_left {s p q : Str} (h : hasPfx s (p ++ q) = true) :
    hasPfx s p = true := by
  induction p generalizing s with
  | nil => cases s <;> rfl
  | cons c t ih =>
    cases s with
    | nil => simp [hasPfx] at h
    | cons a u =>
      simp only [List.cons_append, hasPfx, Bool.and_eq_true, decide_eq_true_eq] at h ⊢
      exact ⟨h.1, ih h.2⟩

theorem containsSub_of_hasPfx {pat s : Str} (h : hasPfx s pat = true) :
    containsSub pat s = true := by
  cases s with
  | nil => simpa [containsSub] using h
  | cons c t => simp [containsSub, h]

theorem containsSub_cons {pat : Str} (c : Char) {t : Str}
    (h : containsSub pat t = true) : containsSub pat (c :: t) = true := by
  simp [containsSub, h]

theorem containsSub_of_append (pat a b : Str) :
    containsSub pat (a ++ pat ++ b) = true := by
  induction a with
  | nil => exact containsSub_of_hasPfx (by simpa using hasPfx_append pat b)
  | cons c t ih => simpa using containsSub_cons c ih

theorem splitNl_ne_nil (s : Str) : splitNl s ≠ [] := by
  cases s with
  | nil => simp [splitNl]
  | cons c t =>
    simp only [splitNl]
    cases splitNl t with
    | nil => simp
    | cons h0 r => by_cases hc : c = Char.ofNat 10 <;> simp [hc]

theorem splitNl_of_no_nl (l : Str) (hl : Char.ofNat 10 ∉ l) : splitNl l = [l] := by
  induction l with
  | nil => rfl
  | cons c t ih =>
    simp only [List.mem_cons, not_or] at hl
    simp only [splitNl, ih hl.2]
    simp [Ne.symm hl.1]

theorem splitNl_append_nl (l s : Str) (hl : Char.ofNat 10 ∉ l) :
    splitNl (l ++ Char.ofNat 10 :: s) = l :: splitNl s := by
  induction l with
  | nil =>
    simp only [List.nil_append, splitNl]
    rcases hh : splitNl s with _ | ⟨h0, r⟩
    · exact absurd hh (splitNl_ne_nil s)
    · simp
  | cons c t ih =>
    simp only [List.mem_cons, not_or] at hl
    simp only [List.cons_append, List.append_eq, splitNl, ih hl.2]
    simp [Ne.symm hl.1]

theorem splitNl_no_nl (s : Str) : ∀ l ∈ splitNl s, Char.ofNat 10 ∉ l := by
  induction s with
  | nil =>
    intro l hl
    simp only [splitNl, List.mem_singleton] at hl
    subst hl; simp
  | cons c t ih =>
    intro l hl
    simp only [splitNl] at hl
    rcases hh : splitNl t with _ | ⟨h0, r⟩
    · exact absurd hh (splitNl_ne_nil t)
    · rw [hh] at hl
      simp only [] at hl
      have ih0 : Char.ofNat 10 ∉ h0 := ih h0 (hh ▸ List.mem_cons_self h0 r)
      by_cases hc : c = Char.ofNat 10
      · simp only [hc, if_pos rfl] at hl
        rcases List.mem_cons.mp hl with rfl | hl2
        · simp
        · exact ih l (hh ▸ hl2)
      · simp only [if_neg hc] at hl
        rcases List.mem_cons.mp hl with rfl | hl2
        · intro hm
          rcases List.mem_cons.mp hm with h10 | h10
          · exact hc h10.symm
          · exact ih0 h10
        · exact ih l (hh ▸ List.mem_cons_of_mem h0 hl2)

theorem splitNl_joinNl (ls : List Str) (hne : ls ≠ [])
    (hnl : ∀ l ∈ ls, Char.ofNat 10 ∉ l) : splitNl (joinNl ls) = ls := by
  induction ls with
  | nil => exact absurd rfl hne
  | cons l r ih =>
    cases r with
    | nil => exact splitNl_of_no_nl l (hnl l (List.mem_cons_self l []))
    | cons l2 r2 =>
      simp only [joinNl]
      rw [splitNl_append_nl l _ (hnl l (List.mem_cons_self l _)),
        ih (by simp) (fun x hx => hnl x (List.mem_cons_of_mem l hx))]

/-! ### encodeURIComponent / decodeURIComponent -/

/-- Uppercase hexadecimal digit (as produced by `encodeURIComponent`). -/
def hexDigitC (n : Nat) : Char := ("0123456789ABCDEF".data).getD n 'X'

/-- Value of a hexadecimal digit character (case-insensitive). -/
def hexValC (c : Char) : Option Nat :=
  if 48 ≤ c.toNat ∧ c.toNat ≤ 57 then some (c.toNat - 48)
  else if 65 ≤ c.toNat ∧ c.toNat ≤ 70 then some (c.toNat - 55)
  else if 97 ≤ c.toNat ∧ c.toNat ≤ 102 then some (c.toNat - 87)
  else none

/-- Percent-encoding of one byte. -/
def pctByte (b : Nat) : Str := ['%', hexDigitC (b / 16), hexDigitC (b % 16)]

/-- UTF-8 byte sequence of a unicode scalar value. -/
def utf8Bytes (n : Nat) : List Nat :=
  if n < 0x80 then [n]
  else if n < 0x800 then [0xC0 + n / 64, 0x80 + n % 64]
  else if n < 0x10000 then [0xE0 + n / 4096, 0x80 + n / 64 % 64, 0x80 + n % 64]
  else [0xF0 + n / 262144, 0x80 + n / 4096 % 64, 0x80 + n / 64 % 64, 0x80 + n % 64]

/-- Characters left unescaped by `encodeURIComponent`. -/
def isUnresC (c : Char) : Bool :=
  c.isAlpha || c.isDigit || c = '-' || c = '_' || c = '.' || c = '!' ||
  c = '~' || c = '*' || c = Char.ofNat 39 || c = '(' || c = ')'

/-- Percent-encoding of a byte list. -/
def pctOfBytes (bs : List Nat) : Str := (bs.map pctByte).join

/-- Encoding of a single character by `encodeURIComponent`. -/
def encChar (c : Char) : Str :=
  if isUnresC c then [c] else pctOfBytes (utf8Bytes c.toNat)

/-- Model of `encodeURIComponent`. -/
def encodeURIComponent (s : Str) : Str := (s.map encChar).join

/-- Read one `%XX` escape. -/
def readPct : Str → Option (Nat × Str)
  | '%' :: h1 :: h2 :: r =>
    match hexValC h1, hexValC h2 with
    | some a, some b => some (a * 16 + b, r)
    | _, _ => none
  | _ => none

/-- Read one `%XX` escape that must be a UTF-8 continuation byte. -/
def readCont (s : Str) : Option (Nat × Str) :=
  (readPct s).bind (fun p =>
    if 0x80 ≤ p.1 ∧ p.1 < 0xC0 then some (p.1 - 0x80, p.2) else none)

/-- Decode one full percent-encoded UTF-8 sequence into a scalar value. -/
def decodeSeq (s : Str) : Option (Nat × Str) :=
  (readPct s).bind (fun p =>
    if p.1 < 0x80 then some (p.1, p.2)
    else if p.1 < 0xC0 then none
    else if p.1 < 0xE0 then
      (readCont p.2).bind (fun q1 =>
        if 0x80 ≤ (p.1 - 0xC0) * 64 + q1.1 then
          some ((p.1 - 0xC0) * 64 + q1.1, q1.2)
        else none)
    else if p.1 < 0xF0 then
      (readCont p.2).bind (fun q1 =>
        (readCont q1.2).bind (fun q2 =>
          if 0x800 ≤ (p.1 - 0xE0) * 4096 + q1.1 * 64 + q2.1 then
            some ((p.1 - 0xE0) * 4096 + q1.1 * 64 + q2.1, q2.2)
          else none))
    else if p.1 < 0xF8 then
      (readCont p.2).bind (fun q1 =>
        (readCont q1.2).bind (fun q2 =>
          (readCont q2.2).bind (fun q3 =>
            if 0x10000 ≤ (p.1 - 0xF0) * 262144 + q1.1 * 4096 + q2.1 * 64 + q3.1 then
              some ((p.1 - 0xF0) * 262144 + q1.1 * 4096 + q2.1 * 64 + q3.1, q3.2)
            else none)))
    else none)

/-- Fuelled worker for `decodeURIComponent`. -/
def decodeAux : Nat → Str → Option Str
  | 0, _ => none
  | _ + 1, [] => some []
  | fuel + 1, c :: r =>
    if c = '%' then
      (decodeSeq (c :: r)).bind (fun p =>
        if Nat.isValidChar p.1 then
          (decodeAux fuel p.2).map (fun t => Char.ofNat p.1 :: t)
        else none)
    else (decodeAux fuel r).map (fun t => c :: t)

/-- Model of `decodeURIComponent` (`none` models a thrown `URIError`). -/
def decodeURIComponent (s : Str) : Option Str := decodeAux (s.length + 1) s

theorem hexValC_hexDigitC : ∀ x, x < 16 → hexValC (hexDigitC x) = some x := by decide

theorem readPct_pctByte (b : Nat) (hb : b < 256) (r : Str) :
    readPct (pctByte b ++ r) = some (b, r) := by
  have h1 : b / 16 < 16 := by omega
  have h2 : b % 16 < 16 := by omega
  simp only [pctByte, List.cons_append, List.nil_append, readPct,
    hexValC_hexDigitC _ h1, hexValC_hexDigitC _ h2]
  congr 1
  congr 1
  omega

theorem readCont_pctByte (b : Nat) (hb1 : 0x80 ≤ b) (hb2 : b < 0xC0) (r : Str) :
    readCont (pctByte b ++ r) = some (b - 0x80, r) := by
  have hb : b < 256 := by omega
  unfold readCont
  rw [readPct_pctByte b hb r]
  simp only [Option.bind]
  rw [if_pos ⟨hb1, hb2⟩]

theorem pctOfBytes_cons (b : Nat) (bs : List Nat) (r : Str) :
    pctOfBytes (b :: bs) ++ r = pctByte b ++ (pctOfBytes bs ++ r) := by
  simp [pctOfBytes, List.append_assoc]

theorem pctOfBytes_nil_append (r : Str) : pctOfBytes [] ++ r = r := by
  simp [pctOfBytes]

theorem decodeSeq_enc (n : Nat) (hv : n < 0x110000) (r : Str) :
    decodeSeq (pctOfBytes (utf8Bytes n) ++ r) = some (n, r) := by
  unfold utf8Bytes
  by_cases h1 : n < 0x80
  · rw [if_pos h1, pctOfBytes_cons, pctOfBytes_nil_append]
    unfold decodeSeq
    rw [readPct_pctByte n (by omega) r]
    simp only [Option.bind]
    rw [if_pos h1]
  · by_cases h2 : n < 0x800
    · rw [if_neg h1, if_pos h2, pctOfBytes_cons, pctOfBytes_cons,
        pctOfBytes_nil_append]
      unfold decodeSeq
      rw [readPct_pctByte _ (by omega) _]
      simp only [Option.bind]
      rw [if_neg (show ¬ 0xC0 + n / 64 < 0x80 by omega),
        if_neg (show ¬ 0xC0 + n / 64 < 0xC0 by omega),
        if_pos (show 0xC0 + n / 64 < 0xE0 by omega),
        readCont_pctByte (0x80 + n % 64) (by omega) (by omega) r]
      simp only [Option.bind]
      rw [if_pos (show 0x80 ≤ (0xC0 + n / 64 - 0xC0) * 64 + (0x80 + n % 64 - 0x80) by omega)]
      have hval : (0xC0 + n / 64 - 0xC0) * 64 + (0x80 + n % 64 - 0x80) = n := by omega
      rw [hval]
    · by_cases h3 : n < 0x10000
      · rw [if_neg h1, if_neg h2, if_pos h3, pctOfBytes_cons, pctOfBytes_cons,
          pctOfBytes_cons, pctOfBytes_nil_append]
        unfold decodeSeq
        rw [readPct_pctByte _ (by omega) _]
        simp only [Option.bind]
        rw [if_neg (show ¬ 0xE0 + n / 4096 < 0x80 by omega),
          if_neg (show ¬ 0xE0 + n / 4096 < 0xC0 by omega),
          if_neg (show ¬ 0xE0 + n / 4096 < 0xE0 by omega),
          if_pos (show 0xE0 + n / 4096 < 0xF0 by omega),
          readCont_pctByte (0x80 + n / 64 % 64) (by omega) (by omega) _]
        simp only [Option.bind]
        rw [readCont_pctByte (0x80 + n % 64) (by omega) (by omega) r]
        simp only [Option.bind]
        rw [if_pos (show 0x800 ≤ (0xE0 + n / 4096 - 0xE0) * 4096 +
              (0x80 + n / 64 % 64 - 0x80) * 64 + (0x80 + n % 64 - 0x80) by omega)]
        have hval : (0xE0 + n / 4096 - 0xE0) * 4096 +
            (0x80 + n / 64 % 64 - 0x80) * 64 + (0x80 + n % 64 - 0x80) = n := by omega
        rw [hval]
      · rw [if_neg h1, if_neg h2, if_neg h3, pctOfBytes_cons, pctOfBytes_cons,
          pctOfBytes_cons, pctOfBytes_cons, pctOfBytes_nil_append]
        unfold decodeSeq
        rw [readPct_pctByte _ (by omega) _]
        simp only [Option.bind]
        rw [if_neg (show ¬ 0xF0 + n / 262144 < 0x80 by omega),
          if_neg (show ¬ 0xF0 + n / 262144 < 0xC0 by omega),
          if_neg (show ¬ 0xF0 + n / 262144 < 0xE0 by omega),
          if_neg (show ¬ 0xF0 + n / 262144 < 0xF0 by omega),
          if_pos (show 0xF0 + n / 262144 < 0xF8 by omega),
          readCont_pctByte (0x80 + n / 4096 % 64) (by omega) (by omega) _]
        simp only [Option.bind]
        rw [readCont_pctByte (0x80 + n / 64 % 64) (by omega) (by omega) _]
        simp only [Option.bind]
        rw [readCont_pctByte (0x80 + n % 64) (by omega) (by omega) r]
        simp only [Option.bind]
        rw [if_pos (show 0x10000 ≤ (0xF0 + n / 262144 - 0xF0) * 262144 +
              (0x80 + n / 4096 % 64 - 0x80) * 4096 +
              (0x80 + n / 64 % 64 - 0x80) * 64 + (0x80 + n % 64 - 0x80) by omega)]
        have hval : (0xF0 + n / 262144 - 0xF0) * 262144 +
            (0x80 + n / 4096 % 64 - 0x80) * 4096 +
            (0x80 + n / 64 % 64 - 0x80) * 64 + (0x80 + n % 64 - 0x80) = n := by omega
        rw [hval]

theorem isUnresC_ne_pct {c : Char} (h : isUnresC c = true) : ¬ c = '%' := by
  intro he
  subst he
  exact absurd h (by decide)

theorem utf8_shape (n : Nat) : ∃ x, pctOfBytes (utf8Bytes n) = '%' :: x := by
  unfold utf8Bytes
  by_cases h1 : n < 0x80
  · rw [if_pos h1]; exact ⟨_, rfl⟩
  · by_cases h2 : n < 0x800
    · rw [if_neg h1, if_pos h2]; exact ⟨_, rfl⟩
    · by_cases h3 : n < 0x10000
      · rw [if_neg h1, if_neg h2, if_pos h3]; exact ⟨_, rfl⟩
      · rw [if_neg h1, if_neg h2, if_neg h3]; exact ⟨_, rfl⟩

theorem char_toNat_valid (c : Char) : Nat.isValidChar c.toNat := c.valid

theorem char_toNat_lt (c : Char) : c.toNat < 0x110000 := by
  rcases char_toNat_valid c with h | h
  · omega
  · exact h.2

theorem decodeAux_enc (s : Str) : ∀ fuel, s.length < fuel →
    decodeAux fuel (encodeURIComponent s) = some s := by
  induction s with
  | nil =>
    intro fuel hf
    cases fuel with
    | zero => omega
    | succ f => rfl
  | cons c t ih =>
    intro fuel hf
    cases fuel with
    | zero => omega
    | succ f =>
      have hf2 : t.length < f := by simpa using hf
      have henc : encodeURIComponent (c :: t) = encChar c ++ encodeURIComponent t := by
        simp [encodeURIComponent]
      by_cases hu : isUnresC c
      · have h1 : encChar c = [c] := by simp [encChar, hu]
        rw [henc, h1,
          show ([c] : Str) ++ encodeURIComponent t = c :: encodeURIComponent t from rfl]
        simp only [decodeAux]
        rw [if_neg (isUnresC_ne_pct hu), ih f hf2]
        rfl
      · have h1 : encChar c = pctOfBytes (utf8Bytes c.toNat) := by
          simp [encChar, hu]
        obtain ⟨x, hx⟩ := utf8_shape c.toNat
        rw [henc, h1, hx, List.cons_append]
        simp only [decodeAux]
        rw [if_pos trivial,
          show ('%' :: (x ++ encodeURIComponent t) : Str) =
              pctOfBytes (utf8Bytes c.toNat) ++ encodeURIComponent t by
            rw [hx, List.cons_append],
          decodeSeq_enc c.toNat (char_toNat_lt c) _]
        simp only [Option.bind]
        rw [if_pos (char_toNat_valid c), ih f hf2]
        simp only [Option.map_some']
        rw [Char.ofNat_toNat]

theorem encChar_len (c : Char) : 1 ≤ (encChar c).length := by
  by_cases hu : isUnresC c
  · simp [encChar, hu]
  · have h1 : encChar c = pctOfBytes (utf8Bytes c.toNat) := by simp [encChar, hu]
    obtain ⟨x, hx⟩ := utf8_shape c.toNat
    rw [h1, hx]
    simp

theorem enc_len_ge (s : Str) : s.length ≤ (encodeURIComponent s).length := by
  induction s with
  | nil => simp [encodeURIComponent]
  | cons c t ih =>
    have h : encodeURIComponent (c :: t) = encChar c ++ encodeURIComponent t := by
      simp [encodeURIComponent]
    rw [h]
    simp only [List.length_append, List.length_cons]
    have := encChar_len c
    omega

/-- The encode/decode round trip: decoding an encoded string restores it. -/
theorem decode_encode (s : Str) :
    decodeURIComponent (encodeURIComponent s) = some s :=
  decodeAux_enc s _ (by have := enc_len_ge s; omega)

theorem hexDigitC_mem (n : Nat) :
    hexDigitC n ∈ ("0123456789ABCDEF".data) ∨ hexDigitC n = 'X' := by
  by_cases h : n < ("0123456789ABCDEF".data).length
  · left
    unfold hexDigitC
    rw [List.getD_eq_getElem _ _ h]
    exact List.getElem_mem h
  · right
    unfold hexDigitC
    exact List.getD_eq_default _ _ (by omega)

theorem enc_mem_cases {c0 : Char} {s : Str} (h : c0 ∈ encodeURIComponent s) :
    (∃ c ∈ s, c0 = c ∧ isUnresC c = true) ∨ c0 = '%' ∨
      c0 ∈ ("0123456789ABCDEF".data) ∨ c0 = 'X' := by
  unfold encodeURIComponent at h
  rw [List.mem_join] at h
  obtain ⟨l, hl, hc0⟩ := h
  rw [List.mem_map] at hl
  obtain ⟨c, hcs, hlc⟩ := hl
  subst hlc
  unfold encChar at hc0
  by_cases hu : isUnresC c
  · rw [if_pos hu] at hc0
    simp only [List.mem_singleton] at hc0
    exact Or.inl ⟨c, hcs, hc0, hu⟩
  · rw [if_neg hu] at hc0
    unfold pctOfBytes at hc0
    rw [List.mem_join] at hc0
    obtain ⟨p, hp, hc0p⟩ := hc0
    rw [List.mem_map] at hp
    obtain ⟨b, _, hpb⟩ := hp
    subst hpb
    unfold pctByte at hc0p
    rcases List.mem_cons.mp hc0p with h | h
    · exact Or.inr (Or.inl h)
    rcases List.mem_cons.mp h with h | h
    · subst h
      rcases hexDigitC_mem (b / 16) with hm | hm
      · exact Or.inr (Or.inr (Or.inl hm))
      · exact Or.inr (Or.inr (Or.inr hm))
    rcases List.mem_cons.mp h with h | h
    · subst h
      rcases hexDigitC_mem (b % 16) with hm | hm
      · exact Or.inr (Or.inr (Or.inl hm))
      · exact Or.inr (Or.inr (Or.inr hm))
    · simp at h

/-- Characters that are neither unescaped, nor `%`, a hex digit or `X`
never occur in `encodeURIComponent` output. -/
theorem enc_not_mem (c0 : Char) (h1 : isUnresC c0 = false) (h2 : c0 ≠ '%')
    (h3 : c0 ∉ ("0123456789ABCDEF".data)) (h4 : c0 ≠ 'X') (s : Str) :
    c0 ∉ encodeURIComponent s := by
  intro hmem
  rcases enc_mem_cases hmem with ⟨c, _, rfl, hc⟩ | h | h | h
  · rw [hc] at h1; cases h1
  · exact h2 h
  · exact h3 h
  · exact h4 h

/-! ### WHATWG URL model

Model of the platform `URL` class used by the code through `new URL(u)` and
`new URL(u, base)`: scheme/host normalisation, default-port elision,
protocol-relative and path-relative resolution with dot-segment removal.
IPv6 host literals and host percent-decoding/IDNA are out of scope and
treated as parse failures / opaque text. -/

/-- ASCII lowercase. -/
def lowerC (c : Char) : Char :=
  if 65 ≤ c.toNat ∧ c.toNat ≤ 90 then Char.ofNat (c.toNat + 32) else c

def isSchemeChar (c : Char) : Bool :=
  c.isAlpha || c.isDigit || c = '+' || c = '-' || c = '.'

/-- Split a leading `scheme:` off the input (scheme lowercased). -/
def splitScheme (s : Str) : Option (Str × Str) :=
  match s with
  | [] => none
  | c :: _ =>
    if c.isAlpha then
      match s.dropWhile isSchemeChar with
      | ':' :: r => some ((s.takeWhile isSchemeChar).map lowerC, r)
      | _ => none
    else none

def isSpecialScheme (sch : Str) : Bool :=
  sch = "http".data || sch = "https".data || sch = "ws".data ||
  sch = "wss".data || sch = "ftp".data || sch = "file".data

def defaultPort (sch : Str) : Option Nat :=
  if sch = "http".data then some 80
  else if sch = "https".data then some 443
  else if sch = "ws".data then some 80
  else if sch = "wss".data then some 443
  else if sch = "ftp".data then some 21
  else none

/-- Input preprocessing: trim C0-control-or-space, remove tab/CR/LF. -/
def cleanURL (s : Str) : Str :=
  let t := s.dropWhile (fun c => c.toNat ≤ 32)
  let t2 := (t.reverse.dropWhile (fun c => c.toNat ≤ 32)).reverse
  t2.filter (fun c =>
    !(c == Char.ofNat 9 || c == Char.ofNat 10 || c == Char.ofNat 13))

/-- Parsed URL record. -/
structure URLRec where
  scheme : Str
  hasAuth : Bool
  userinfo : Str
  host : Str
  port : Option Nat
  path : Str
  query : Option Str
  frag : Option Str
deriving DecidableEq

def isForbiddenHostC (c : Char) : Bool :=
  c.toNat = 0 || c = Char.ofNat 9 || c = Char.ofNat 10 || c = Char.ofNat 13 ||
  c = ' ' || c = '#' || c = '/' || c = ':' || c = '<' || c = '>' || c = '?' ||
  c = '@' || c = '[' || c = '\\' || c = ']' || c = '^' || c = '|'

/-- Split the userinfo (before the last `@`) off an authority chunk. -/
def splitUserinfo (a : Str) : Str × Str :=
  let rafter := a.reverse.takeWhile (fun c => c != '@')
  if rafter.length = a.length then ([], a)
  else (a.take (a.length - rafter.length - 1), rafter.reverse)

/-- Parse `host[:port]`; lowercase special hosts, drop default ports. -/
def parseHostPort (special : Bool) (sch : Str) (hp : Str) : Option (Str × Option Nat) :=
  let host0 := hp.takeWhile (fun c => c != ':')
  let rest := hp.dropWhile (fun c => c != ':')
  let host := if special then host0.map lowerC else host0
  if host.any isForbiddenHostC then none
  else
    match rest with
    | [] => some (host, none)
    | _ :: portStr =>
      if portStr = [] then some (host, none)
      else if portStr.all (fun c => c.isDigit) then
        let p := portStr.foldl (fun a c => a * 10 + (c.toNat - 48)) 0
        if 65536 ≤ p then none
        else if defaultPort sch = some p then some (host, none)
        else some (host, some p)
      else none

/-- Split `path?query#fragment` components. -/
def splitPQF (s : Str) : Str × Option Str × Option Str :=
  let pq := s.takeWhile (fun c => c != '#')
  let fr := s.dropWhile (fun c => c != '#')
  let f : Option Str := match fr with | [] => none | _ :: fr2 => some fr2
  let p := pq.takeWhile (fun c => c != '?')
  let qr := pq.dropWhile (fun c => c != '?')
  let q : Option Str := match qr with | [] => none | _ :: q2 => some q2
  (p, q, f)

/-- Split a string on `/`. -/
def splitSlash : Str → List Str
  | [] => [[]]
  | c :: t =>
    match splitSlash t with
    | [] => [[]]
    | h :: r => if c = '/' then [] :: h :: r else (c :: h) :: r

def joinSlash : List Str → Str
  | [] => []
  | [l] => l
  | l :: l2 :: r => l ++ '/' :: joinSlash (l2 :: r)

/-- In special URLs a backslash acts as a path separator. -/
def mapBackslash (special : Bool) (p : Str) : Str :=
  if special then p.map (fun c => if c = '\\' then '/' else c) else p

def isSingleDot (s : Str) : Bool :=
  let l := s.map lowerC
  l = ['.'] || l = "%2e".data

def isDoubleDot (s : Str) : Bool :=
  let l := s.map lowerC
  l = "..".data || l = ".%2e".data || l = "%2e.".data || l = "%2e%2e".data

/-- Dot-segment removal over path segments (stack-based). -/
def dotNormAux : List Str → List Str → List Str
  | stack, [] => stack.reverse
  | stack, s :: rest =>
    if isDoubleDot s then
      if rest = [] then stack.tail.reverse ++ [[]]
      else dotNormAux stack.tail rest
    else if isSingleDot s then
      if rest = [] then stack.reverse ++ [[]]
      else dotNormAux stack rest
    else dotNormAux (s :: stack) rest

def serializePath (special : Bool) (segs : List Str) : Str :=
  if segs = [] then (if special then ['/'] else [])
  else '/' :: joinSlash segs

/-- Segments of a serialized path (leading slash stripped). -/
def pathSegsOf (p : Str) : List Str :=
  match p with
  | [] => []
  | '/' :: rest => splitSlash rest
  | _ => splitSlash p

/-- Parse authority, path, query and fragment (input starts at the
authority). -/
def parseWithAuthority (sch : Str) (s : Str) : Option URLRec :=
  let special := isSpecialScheme sch
  let stop := fun c => c == '/' || c == '?' || c == '#' || (special && c == '\\')
  let auth := s.takeWhile (fun c => !(stop c))
  let after := s.dropWhile (fun c => !(stop c))
  let uihp := splitUserinfo auth
  match parseHostPort special sch uihp.2 with
  | none => none
  | some (host, port) =>
    if host = [] ∧ special = true ∧ sch ≠ "file".data then none
    else
      let pqf := splitPQF after
      let p := mapBackslash special pqf.1
      some ⟨sch, true, uihp.1, host, port,
        serializePath special (dotNormAux [] (pathSegsOf p)), pqf.2.1, pqf.2.2⟩

/-- Parse an absolute URL string (already cleaned). -/
def parseAbsURL (s : Str) : Option URLRec :=
  match splitScheme s with
  | none => none
  | some (sch, rest) =>
    if isSpecialScheme sch then
      parseWithAuthority sch (rest.dropWhile (fun c => c == '/' || c == '\\'))
    else if hasPfx rest "//".data then
      parseWithAuthority sch (rest.drop 2)
    else
      let pqf := splitPQF rest
      some ⟨sch, false, [], [], none, pqf.1, pqf.2.1, pqf.2.2⟩

/-- Serialization (`URL.prototype.toString` / `href`). -/
def serializeURL (u : URLRec) : Str :=
  u.scheme ++ ':' ::
    ((if u.hasAuth then
        "//".data ++ (if u.userinfo = [] then [] else u.userinfo ++ ['@']) ++
          u.host ++ (match u.port with | none => [] | some p => ':' :: natToStr p)
      else []) ++
      u.path ++
      (match u.query with | none => [] | some q => '?' :: q) ++
      (match u.frag with | none => [] | some f => '#' :: f))

/-- Resolve a path-absolute reference against a base. -/
def pathAbs (base : URLRec) (special : Bool) (s : Str) : Option URLRec :=
  let pqf := splitPQF s
  let p := mapBackslash special pqf.1
  some { base with path := serializePath special (dotNormAux [] (pathSegsOf p)),
                   query := pqf.2.1, frag := pqf.2.2 }

/-- Resolve a schemeless reference against a base. -/
def resolveNoScheme (base : URLRec) (r : Str) : Option URLRec :=
  if base.hasAuth = false ∧ hasPfx r "#".data = false then none
  else
    let special := isSpecialScheme base.scheme
    match r with
    | [] => some { base with frag := none }
    | c :: t =>
      if c = '#' then some { base with frag := some t }
      else if c = '?' then
        let q := t.takeWhile (fun d => d != '#')
        let fr := t.dropWhile (fun d => d != '#')
        some { base with query := some q, frag := fr.tail? }
      else if c == '/' || (special && c == '\\') then
        match t with
        | c2 :: _ =>
          if c2 == '/' || (special && c2 == '\\') then
            if special then
              parseWithAuthority base.scheme
                ((c :: t).dropWhile (fun d => d == '/' || d == '\\'))
            else parseWithAuthority base.scheme (t.drop 1)
          else pathAbs base special (c :: t)
        | [] => pathAbs base special (c :: t)
      else
        let pqf := splitPQF (c :: t)
        let p := mapBackslash special pqf.1
        let merged := (pathSegsOf base.path).dropLast ++ splitSlash p
        let np := serializePath special (dotNormAux [] merged)
        some { base with path := np, query := pqf.2.1, frag := pqf.2.2 }

/-- Resolve a reference against a parsed base (`new URL(r, base)`). -/
def resolveURL (base : URLRec) (r : Str) : Option URLRec :=
  match splitScheme r with
  | some (sch, rest) =>
    if isSpecialScheme sch = true ∧ sch = base.scheme then resolveNoScheme base rest
    else parseAbsURL r
  | none => resolveNoScheme base r

/-- Model of the helper `safeCreateURL` of `src/routes/m3u8-proxy.ts`:
`base ? new URL(url, base) : new URL(url)`, any parse failure giving `null`;
the result is kept in serialized (`toString`) form. -/
def safeCreateURL (url : Str) (base : Option Str) : Option Str :=
  match base with
  | none => (parseAbsURL (cleanURL url)).map serializeURL
  | some b =>
    match parseAbsURL (cleanURL b) with
    | none => none
    | some bu => (resolveURL bu (cleanURL url)).map serializeURL

/-- Model of the regular-expression test `/^https?:\/\//i`. -/
def httpSchemeTest (s : Str) : Bool :=
  hasPfx (s.map lowerC) ("http://".data) || hasPfx (s.map lowerC) ("https://".data)

/-- Model of the helper `parseURL` of `src/routes/m3u8-proxy.ts`: with a
base it resolves against the base immediately; otherwise it tries the
http(s)-scheme test, then the protocol-relative `//` prefix, else `null`. -/
def parseURLm (requrl : Str) (baseUrl : Option Str) : Option Str :=
  match baseUrl with
  | some b => safeCreateURL requrl (some b)
  | none =>
    if httpSchemeTest requrl then safeCreateURL requrl none
    else if hasPfx requrl ("//".data) then
      safeCreateURL ("https:".data ++ requrl) none
    else none

example : safeCreateURL ("https://cdn.example.com/a/master.m3u8".data) none =
    some ("https://cdn.example.com/a/master.m3u8".data) := by decide

example : safeCreateURL ("high/index.m3u8".data)
    (some ("https://cdn.example.com/a/master.m3u8".data)) =
    some ("https://cdn.example.com/a/high/index.m3u8".data) := by decide

example : safeCreateURL ("http://".data) none = none := by decide

example : safeCreateURL ("httpseg.ts".data) none = none := by decide

example : safeCreateURL ("//h/p".data) (some ("http://b/".data)) =
    some ("http://h/p".data) := by decide

example : safeCreateURL ("https://h/p".data) none = some ("https://h/p".data) := by
  decide

example : safeCreateURL ("#E".data)
    (some ("https://cdn.example.com/a/index.m3u8".data)) =
    some ("https://cdn.example.com/a/index.m3u8#E".data) := by decide

example : safeCreateURL ("ftp://example.com/f".data) none =
    some ("ftp://example.com/f".data) := by decide

example : safeCreateURL ("data:text/plain,x".data) none =
    some ("data:text/plain,x".data) := by decide

example : safeCreateURL ("../up.ts".data)
    (some ("https://cdn.example.com/a/b/index.m3u8".data)) =
    some ("https://cdn.example.com/a/up.ts".data) := by decide

example : safeCreateURL ("HTTP://EXAMPLE.com:80/x".data) none =
    some ("http://example.com/x".data) := by decide

/-! ### Playlist rewriter (src/routes/m3u8-proxy.ts) -/

/-- The resolution step the rewriter applies to every reference:
`x.startsWith('http') ? safeCreateURL(x) : safeCreateURL(x, source)`. -/
def resolveRef (s : Str) (base : Str) : Option Str :=
  if hasPfx s ("http".data) then safeCreateURL s none
  else safeCreateURL s (some base)

/-- A rewritten proxy URL:
`baseProxyUrl + route + "?url=" + enc(target) + "&headers=" + enc(headersJson)`. -/
def proxyURL (basePx route target hdrs : Str) : Str :=
  basePx ++ route ++ "?url=".data ++ encodeURIComponent target ++
    "&headers=".data ++ encodeURIComponent hdrs

/-- The `#EXT-X-KEY:` branch (identical in both playlist kinds). -/
def keyLine (basePx src hdrs line : Str) : Str :=
  match extractURI line with
  | none => line
  | some u =>
    match resolveRef u src with
    | none => line
    | some full => jsReplace line u (proxyURL basePx ("/ts-proxy".data) full hdrs)

/-- The `#EXT-X-MEDIA:` branch (master playlists only). -/
def mediaLine (basePx src hdrs line : Str) : Str :=
  match extractURI line with
  | none => line
  | some u =>
    match resolveRef u src with
    | none => line
    | some full => jsReplace line u (proxyURL basePx ("/m3u8-proxy".data) full hdrs)

/-- Per-line processing in the master (`RESOLUTION=` present) branch. -/
def masterLine (basePx src hdrs line : Str) : Str :=
  if hasPfx line ("#".data) then
    if hasPfx line ("#EXT-X-KEY:".data) then keyLine basePx src hdrs line
    else if hasPfx line ("#EXT-X-MEDIA:".data) then mediaLine basePx src hdrs line
    else line
  else if trimJS line ≠ [] then
    match resolveRef line src with
    | none => line
    | some v => proxyURL basePx ("/m3u8-proxy".data) v hdrs
  else line

/-- Per-line processing in the media-playlist branch. -/
def mediaPlaylistLine (basePx src hdrs line : Str) : Str :=
  if hasPfx line ("#".data) then
    if hasPfx line ("#EXT-X-KEY:".data) then keyLine basePx src hdrs line
    else line
  else if trimJS line ≠ [] then
    match resolveRef line src with
    | none => line
    | some v => proxyURL basePx ("/ts-proxy".data) v hdrs
  else line

def rewriteLine (isMaster : Bool) (basePx src hdrs line : Str) : Str :=
  if isMaster then masterLine basePx src hdrs line
  else mediaPlaylistLine basePx src hdrs line

/-- The full rewriting pass of the m3u8 proxy: classify by the
`RESOLUTION=` substring, split on newlines, rewrite per line, re-join. -/
def rewriteM3U8 (body src basePx hdrs : Str) : Str :=
  joinNl ((splitNl body).map
    (rewriteLine (containsSub ("RESOLUTION=".data) body) basePx src hdrs))

/-- The rewriter output again split on newlines. -/
def rewriteOut (body src basePx hdrs : Str) : List Str :=
  splitNl (rewriteM3U8 body src basePx hdrs)

example :
    rewriteOut ("#EXT-X-STREAM-INF:RESOLUTION=1\nhttp://".data)
      ("https://cdn.example.com/a/master.m3u8".data)
      ("https://proxy.local".data) ("\x7b\x7d".data) =
    [("#EXT-X-STREAM-INF:RESOLUTION=1".data), ("http://".data)] := by decide

example :
    extractURI ("#EXT-X-KEY:METHOD=AES-128,URI=\"k.key\",IV=0x1".data) =
    some ("k.key".data) := by decide

/-! ### JSON validity (model of `JSON.parse` succeeding) -/

def jWsC (c : Char) : Bool :=
  c = ' ' || c = Char.ofNat 9 || c = Char.ofNat 10 || c = Char.ofNat 13

def skipWsJ (s : Str) : Str := s.dropWhile jWsC

def isHexC (c : Char) : Bool := (hexValC c).isSome

/-- Scan a JSON string body after the opening quote; returns the rest. -/
def jStringAux : Nat → Str → Option Str
  | 0, _ => none
  | fuel + 1, s =>
    match s with
    | [] => none
    | c :: t =>
      if c = Char.ofNat 34 then some t
      else if c = '\\' then
        match t with
        | [] => none
        | e :: t2 =>
          if e = Char.ofNat 34 || e = '\\' || e = '/' || e = 'b' || e = 'f' ||
              e = 'n' || e = 'r' || e = 't' then jStringAux fuel t2
          else if e = 'u' then
            match t2 with
            | h1 :: h2 :: h3 :: h4 :: t3 =>
              if isHexC h1 && isHexC h2 && isHexC h3 && isHexC h4 then
                jStringAux fuel t3
              else none
            | _ => none
          else none
      else if c.toNat < 32 then none
      else jStringAux fuel t

/-- One-or-more decimal digits. -/
def jDigits (s : Str) : Option Str :=
  if (s.takeWhile Char.isDigit).isEmpty then none
  else some (s.dropWhile Char.isDigit)

def jExp (s : Str) : Option Str :=
  match s with
  | [] => some []
  | c :: t =>
    if c = 'e' || c = 'E' then
      let t2 := if hasPfx t ("+".data) || hasPfx t ("-".data) then t.drop 1 else t
      jDigits t2
    else some s

def jFrac (s : Str) : Option Str :=
  match s with
  | '.' :: t =>
    match jDigits t with
    | none => none
    | some r => jExp r
  | _ => jExp s

def jNumber (s : Str) : Option Str :=
  let s1 := if hasPfx s ("-".data) then s.drop 1 else s
  match s1 with
  | [] => none
  | c :: t =>
    if c = '0' then jFrac t
    else if c.isDigit then jFrac (t.dropWhile Char.isDigit)
    else none

inductive JMode where
  | value
  | elems
  | members

/-- Fuelled JSON scanner; returns the unconsumed remainder on success. -/
def jRun : Nat → JMode → Str → Option Str
  | 0, _, _ => none
  | fuel + 1, JMode.value, s =>
    match s with
    | [] => none
    | c :: t =>
      if c = 't' then (if hasPfx t ("rue".data) then some (t.drop 3) else none)
      else if c = 'f' then (if hasPfx t ("alse".data) then some (t.drop 4) else none)
      else if c = 'n' then (if hasPfx t ("ull".data) then some (t.drop 3) else none)
      else if c = Char.ofNat 34 then jStringAux (t.length + 1) t
      else if c = '-' || c.isDigit then jNumber (c :: t)
      else if c = '[' then
        match skipWsJ t with
        | ']' :: t3 => some t3
        | t2 =>
          match jRun fuel JMode.value t2 with
          | none => none
          | some r => jRun fuel JMode.elems r
      else if c = Char.ofNat 123 then
        match skipWsJ t with
        | c2 :: t3 =>
          if c2 = Char.ofNat 125 then some t3
          else jRun fuel JMode.members (c2 :: t3)
        | [] => none
      else none
  | fuel + 1, JMode.elems, s =>
    match skipWsJ s with
    | ']' :: t => some t
    | ',' :: t =>
      match jRun fuel JMode.value (skipWsJ t) with
      | none => none
      | some r => jRun fuel JMode.elems r
    | _ => none
  | fuel + 1, JMode.members, s =>
    match skipWsJ s with
    | [] => none
    | c :: t =>
      if c = Char.ofNat 34 then
        match jStringAux (t.length + 1) t with
        | none => none
        | some r =>
          match skipWsJ r with
          | ':' :: t2 =>
            match jRun fuel JMode.value (skipWsJ t2) with
            | none => none
            | some r2 =>
              match skipWsJ r2 with
              | c3 :: t3 =>
                if c3 = Char.ofNat 125 then some t3
                else if c3 = ',' then jRun fuel JMode.members t3
                else none
              | [] => none
          | _ => none
      else none

/-- Does `JSON.parse` accept the text? -/
def jsonValid (s : Str) : Bool :=
  match jRun (4 * s.length + 8) JMode.value (skipWsJ s) with
  | some r => (skipWsJ r).isEmpty
  | none => false

example : jsonValid ("not-json".data) = false := by decide
example : jsonValid ("\x7b\x7d".data) = true := by decide
example : jsonValid ("\x7b\"Referer\":\"https://x.y\"\x7d".data) = true := by decide
example : jsonValid ("\x7b\"a\":[1,2.5e3,null,true]\x7d".data) = true := by decide
example : jsonValid ("\x7b\"a\":1,\x7d".data) = false := by decide

/-! ### Request handlers -/

/-- An inbound request, reduced to what the handlers inspect: the method,
the `url` and `headers` query parameters, and `proto + "//" + host` of the
request URL (the proxy base used for rewriting). -/
structure Req where
  method : Str
  urlParam : Option Str
  headersParam : Option Str
  proxyBase : Str
deriving DecidableEq

/-- Outcome of the outbound `fetch`: a response, or a network error
(rejected promise) carrying `error.message`. -/
inductive Upstream where
  | resp (status : Nat) (statusText : Str) (body : Str)
  | netErr (msg : Str)
deriving DecidableEq

structure HResp where
  status : Nat
  body : Str
  headers : List (Str × Str)
deriving DecidableEq

def acaoH : Str := "Access-Control-Allow-Origin".data
def acahH : Str := "Access-Control-Allow-Headers".data
def acamH : Str := "Access-Control-Allow-Methods".data
def star : Str := "*".data

def findHdr (n : Str) (hs : List (Str × Str)) : Option Str :=
  (hs.find? (fun p => p.1 == n)).map (fun p => p.2)

def optionsResp : HResp :=
  ⟨200, [],
    [(acaoH, star), (acamH, "GET, OPTIONS".data), (acahH, star),
     ("Access-Control-Max-Age".data, "86400".data)]⟩

/-- Does `JSON.parse(headersParam)` fail?  The code guards the parse with
`headersParam ? … : {}`, so a JS-falsy (absent or empty-string) parameter
is treated as absent and never parsed. -/
def headersBad (rq : Req) : Bool :=
  match rq.headersParam with
  | some hp => if hp = [] then false else !(jsonValid hp)
  | none => false

/-- Auxiliary for `jsonStrip` (state: inside-string, after-backslash). -/
def jsonStripAux : Bool → Bool → Str → Str
  | _, _, [] => []
  | true, true, c :: t => c :: jsonStripAux true false t
  | true, false, c :: t =>
    if c = '\\' then c :: jsonStripAux true true t
    else if c = Char.ofNat 34 then c :: jsonStripAux false false t
    else c :: jsonStripAux true false t
  | false, _, c :: t =>
    if jWsC c then jsonStripAux false false t
    else if c = Char.ofNat 34 then c :: jsonStripAux true false t
    else c :: jsonStripAux false false t

/-- `JSON.stringify(JSON.parse(h))` modelled as stripping insignificant
whitespace outside string literals.  This approximation is exact for
whitespace but not for number normalization, `\u` escapes or duplicate
keys; no theorem below observes its output. -/
def jsonStrip (s : Str) : Str := jsonStripAux false false s

/-- The headers JSON re-serialized for embedding in rewritten URLs; a
JS-falsy (absent or empty) parameter yields `JSON.stringify({})`. -/
def hdrsJsonOf (rq : Req) : Str :=
  match rq.headersParam with
  | none => "\x7b\x7d".data
  | some hp => if hp = [] then "\x7b\x7d".data else jsonStrip hp

def m3u8OkHeaders : List (Str × Str) :=
  [("Content-Type".data, "application/vnd.apple.mpegurl".data),
   (acaoH, star), (acahH, star), (acamH, star),
   ("Cache-Control".data, "no-cache, no-store, must-revalidate".data)]

def tsOkHeaders : List (Str × Str) :=
  [("Content-Type".data, "video/mp2t".data),
   (acaoH, star), (acahH, star), (acamH, star),
   ("Cache-Control".data, "public, max-age=3600".data)]

/-- Parameter validation of `src/routes/m3u8-proxy.ts` (lines 64-89):
either an early error response, or the validated target URL.  The code's
`if (!targetUrl)` is a JS falsiness test, so an absent OR empty-string
`url` parameter yields the missing-parameter 400. -/
def m3u8Validate (rq : Req) : Sum HResp Str :=
  match rq.urlParam with
  | none => Sum.inl ⟨400, "URL parameter is required".data, []⟩
  | some target =>
    if target = [] then Sum.inl ⟨400, "URL parameter is required".data, []⟩
    else if headersBad rq then Sum.inl ⟨400, "Invalid headers format".data, []⟩
    else
      match safeCreateURL target none with
      | none => Sum.inl ⟨400, "Invalid target URL: ".data ++ target, [(acaoH, star)]⟩
      | some v => Sum.inr v

def isOk (st : Nat) : Bool := 200 ≤ st && st < 300

/-- The fetch-and-rewrite phase of the m3u8 handler (after validation). -/
def m3u8FetchPhase (rq : Req) (v : Str) : Upstream → HResp
  | Upstream.netErr m =>
    ⟨500, (if m = [] then "Error proxying M3U8 file".data else m), [(acaoH, star)]⟩
  | Upstream.resp st stx body =>
    if isOk st then
      ⟨200, rewriteM3U8 body v rq.proxyBase (hdrsJsonOf rq), m3u8OkHeaders⟩
    else
      ⟨500, "Failed to fetch M3U8: ".data ++ natToStr st ++ ' ' :: stx,
        [(acaoH, star)]⟩

/-- The m3u8-proxy request handler, as a function of the request and the
upstream fetch outcome. -/
def m3u8Handler (rq : Req) (up : Upstream) : HResp :=
  if rq.method = "OPTIONS".data then optionsResp
  else
    match m3u8Validate rq with
    | Sum.inl r => r
    | Sum.inr v => m3u8FetchPhase rq v up

/-- Parameter validation of `src/routes/ts-proxy.ts` (lines 19-33): no URL
parse check — the raw target string goes straight to `fetch`.  As above,
`if (!targetUrl)` treats an empty-string `url` as missing. -/
def tsValidate (rq : Req) : Sum HResp Str :=
  match rq.urlParam with
  | none => Sum.inl ⟨400, "URL parameter is required".data, []⟩
  | some target =>
    if target = [] then Sum.inl ⟨400, "URL parameter is required".data, []⟩
    else if headersBad rq then Sum.inl ⟨400, "Invalid headers format".data, []⟩
    else Sum.inr target

/-- Response of `src/routes/ts-proxy.ts` to an upstream outcome. -/
def tsUpstreamResp : Upstream → HResp
  | Upstream.netErr m =>
    ⟨500, (if m = [] then "Error proxying TS file".data else m), [(acaoH, star)]⟩
  | Upstream.resp st stx body =>
    if isOk st then ⟨200, body, tsOkHeaders⟩
    else
      ⟨500, "Failed to fetch TS file: ".data ++ natToStr st ++ ' ' :: stx,
        [(acaoH, star)]⟩

/-- The fetch phase of `src/routes/ts-proxy.ts`: `fetch` on a string that
fails URL parsing rejects with a `TypeError` (modelled by the
`safeCreateURL` test), which the surrounding catch turns into a 500
response; otherwise the upstream outcome decides the response. -/
def tsFetchPhase (t : Str) (up : Upstream) : HResp :=
  match safeCreateURL t none with
  | none => ⟨500, "Failed to parse URL from ".data ++ t, [(acaoH, star)]⟩
  | some _ => tsUpstreamResp up

/-- The ts-proxy request handler of `src/routes/ts-proxy.ts`. -/
def tsHandler (rq : Req) (up : Upstream) : HResp :=
  if rq.method = "OPTIONS".data then optionsResp
  else
    match tsValidate rq with
    | Sum.inl r => r
    | Sum.inr t => tsFetchPhase t up

/-- Parameter validation of the unnamed ts-proxy variant
(`src/unnamed/part_000`, lines 35-59): same checks as the m3u8 route,
including the `safeCreateURL` validation, CORS header on every 400, and
the same JS falsiness semantics for `url` and `headers`. -/
def tsAltValidate (rq : Req) : Sum HResp Str :=
  match rq.urlParam with
  | none => Sum.inl ⟨400, "URL parameter is required".data, [(acaoH, star)]⟩
  | some target =>
    if target = [] then
      Sum.inl ⟨400, "URL parameter is required".data, [(acaoH, star)]⟩
    else if headersBad rq then
      Sum.inl ⟨400, "Invalid headers format".data, [(acaoH, star)]⟩
    else
      match safeCreateURL target none with
      | none => Sum.inl ⟨400, "Invalid target URL".data, [(acaoH, star)]⟩
      | some v => Sum.inr v

/-! ### Structural lemmas about the rewriter -/

theorem hasPfx_drop {s pat : Str} (h : hasPfx s pat = true) :
    s = pat ++ s.drop pat.length := by
  induction pat generalizing s with
  | nil => simp
  | cons p q ih =>
    cases s with
    | nil => simp [hasPfx] at h
    | cons c t =>
      simp only [hasPfx, Bool.and_eq_true, decide_eq_true_eq] at h
      obtain ⟨rfl, h2⟩ := h
      simp only [List.cons_append, List.length_cons, List.drop_succ_cons]
      exact congrArg (c :: ·) (ih h2)

theorem splitAtSub_spec {pat s a b : Str} (h : splitAtSub pat s = some (a, b)) :
    s = a ++ pat ++ b := by
  induction s generalizing a b with
  | nil =>
    by_cases hp : pat = []
    · subst hp
      simp only [splitAtSub, if_pos rfl, Option.some.injEq, Prod.mk.injEq] at h
      obtain ⟨rfl, rfl⟩ := h
      rfl
    · simp [splitAtSub, hp] at h
  | cons c t ih =>
    simp only [splitAtSub] at h
    by_cases hpfx : hasPfx (c :: t) pat = true
    · rw [if_pos hpfx] at h
      simp only [Option.some.injEq, Prod.mk.injEq] at h
      obtain ⟨rfl, rfl⟩ := h
      simpa using hasPfx_drop hpfx
    · rw [if_neg hpfx] at h
      cases hs : splitAtSub pat t with
      | none => rw [hs] at h; cases h
      | some p =>
        obtain ⟨a2, b2⟩ := p
        rw [hs] at h
        simp only [Option.some.injEq, Prod.mk.injEq] at h
        obtain ⟨rfl, rfl⟩ := h
        simpa using congrArg (c :: ·) (ih hs)

theorem jsReplace_cases (s pat rep : Str) :
    jsReplace s pat rep = s ∨
      ∃ a b, s = a ++ pat ++ b ∧
        jsReplace s pat rep = a ++ expandRepl rep a pat b ++ b := by
  unfold jsReplace
  cases hs : splitAtSub pat s with
  | none => left; rfl
  | some p =>
    right
    exact ⟨p.1, p.2, splitAtSub_spec (show splitAtSub pat s = some (p.1, p.2) by
      rw [hs]), rfl⟩

theorem expandRepl_mem (c0 : Char) :
    ∀ n rep pre pat post, rep.length ≤ n → c0 ∈ expandRepl rep pre pat post →
      c0 ∈ rep ∨ c0 ∈ pat ∨ c0 ∈ pre ∨ c0 ∈ post ∨ c0 = '$' := by
  intro n
  induction n with
  | zero =>
    intro rep pre pat post hlen hmem
    rw [List.length_eq_zero.mp (Nat.le_zero.mp hlen)] at hmem
    simp [expandRepl] at hmem
  | succ k ih =>
    intro rep pre pat post hlen hmem
    match rep with
    | [] => simp [expandRepl] at hmem
    | [c] =>
      simp only [expandRepl, List.mem_singleton] at hmem
      exact Or.inl (by simp [hmem])
    | c :: d :: t2 =>
      rw [expandRepl] at hmem
      have ht2 : t2.length ≤ k := by
        simp only [List.length_cons] at hlen
        omega
      have htd : (d :: t2).length ≤ k := by
        simp only [List.length_cons] at hlen ⊢
        omega
      have lift2 : c0 ∈ expandRepl t2 pre pat post →
          c0 ∈ c :: d :: t2 ∨ c0 ∈ pat ∨ c0 ∈ pre ∨ c0 ∈ post ∨ c0 = '$' := by
        intro hm
        rcases ih t2 pre pat post ht2 hm with h | h | h | h | h
        · exact Or.inl (by simp [h])
        · exact Or.inr (Or.inl h)
        · exact Or.inr (Or.inr (Or.inl h))
        · exact Or.inr (Or.inr (Or.inr (Or.inl h)))
        · exact Or.inr (Or.inr (Or.inr (Or.inr h)))
      by_cases hc : c = '$'
      · rw [if_pos hc] at hmem
        by_cases hd : d = '$'
        · rw [if_pos hd] at hmem
          rcases List.mem_cons.mp hmem with rfl | hm
          · exact Or.inr (Or.inr (Or.inr (Or.inr rfl)))
          · exact lift2 hm
        · rw [if_neg hd] at hmem
          by_cases he : d = '&'
          · rw [if_pos he] at hmem
            rcases List.mem_append.mp hmem with hm | hm
            · exact Or.inr (Or.inl hm)
            · exact lift2 hm
          · rw [if_neg he] at hmem
            by_cases hf : d = Char.ofNat 96
            · rw [if_pos hf] at hmem
              rcases List.mem_append.mp hmem with hm | hm
              · exact Or.inr (Or.inr (Or.inl hm))
              · exact lift2 hm
            · rw [if_neg hf] at hmem
              by_cases hg : d = Char.ofNat 39
              · rw [if_pos hg] at hmem
                rcases List.mem_append.mp hmem with hm | hm
                · exact Or.inr (Or.inr (Or.inr (Or.inl hm)))
                · exact lift2 hm
              · rw [if_neg hg] at hmem
                rcases List.mem_cons.mp hmem with rfl | hm
                · exact Or.inr (Or.inr (Or.inr (Or.inr rfl)))
                · rcases List.mem_cons.mp hm with rfl | hm2
                  · exact Or.inl (by simp)
                  · exact lift2 hm2
      · rw [if_neg hc] at hmem
        rcases List.mem_cons.mp hmem with rfl | hm
        · exact Or.inl (by simp)
        · rcases ih (d :: t2) pre pat post htd hm with h | h | h | h | h
          · exact Or.inl (List.mem_cons_of_mem c h)
          · exact Or.inr (Or.inl h)
          · exact Or.inr (Or.inr (Or.inl h))
          · exact Or.inr (Or.inr (Or.inr (Or.inl h)))
          · exact Or.inr (Or.inr (Or.inr (Or.inr h)))

theorem jsReplace_not_mem {c0 : Char} {s pat rep : Str} (hs : c0 ∉ s)
    (hr : c0 ∉ rep) (hd : c0 ≠ '$') : c0 ∉ jsReplace s pat rep := by
  rcases jsReplace_cases s pat rep with h | ⟨a, b, hsplit, h⟩
  · rw [h]; exact hs
  · rw [h]
    intro hmem
    have hna : c0 ∉ a := fun hm => hs (hsplit ▸ by simp [hm])
    have hnb : c0 ∉ b := fun hm => hs (hsplit ▸ by simp [hm])
    have hnp : c0 ∉ pat := fun hm => hs (hsplit ▸ by simp [hm])
    rcases List.mem_append.mp hmem with hm | hm
    · rcases List.mem_append.mp hm with hm2 | hm2
      · exact hna hm2
      · rcases expandRepl_mem c0 rep.length rep a pat b (Nat.le_refl _) hm2 with
          h2 | h2 | h2 | h2 | h2
        · exact hr h2
        · exact hnp h2
        · exact hna h2
        · exact hnb h2
        · exact hd h2
    · exact hnb hm

theorem nl_not_in_enc (s : Str) : Char.ofNat 10 ∉ encodeURIComponent s :=
  enc_not_mem _ (by decide) (by decide) (by decide) (by decide) s

theorem amp_not_in_enc (s : Str) : '&' ∉ encodeURIComponent s :=
  enc_not_mem _ (by decide) (by decide) (by decide) (by decide) s

theorem nl_not_in_proxyURL {px route target hdrs : Str}
    (hpx : Char.ofNat 10 ∉ px) (hroute : Char.ofNat 10 ∉ route) :
    Char.ofNat 10 ∉ proxyURL px route target hdrs := by
  unfold proxyURL
  intro hm
  simp only [List.mem_append] at hm
  rcases hm with ((((h | h) | h) | h) | h) | h
  · exact hpx h
  · exact hroute h
  · revert h; decide
  · exact nl_not_in_enc target h
  · revert h; decide
  · exact nl_not_in_enc hdrs h

theorem keyLine_no_nl {px src hdrs line : Str} (hpx : Char.ofNat 10 ∉ px)
    (hline : Char.ofNat 10 ∉ line) :
    Char.ofNat 10 ∉ keyLine px src hdrs line := by
  unfold keyLine
  split
  · exact hline
  · split
    · exact hline
    · exact jsReplace_not_mem hline (nl_not_in_proxyURL hpx (by decide)) (by decide)

theorem mediaLine_no_nl {px src hdrs line : Str} (hpx : Char.ofNat 10 ∉ px)
    (hline : Char.ofNat 10 ∉ line) :
    Char.ofNat 10 ∉ mediaLine px src hdrs line := by
  unfold mediaLine
  split
  · exact hline
  · split
    · exact hline
    · exact jsReplace_not_mem hline (nl_not_in_proxyURL hpx (by decide)) (by decide)

theorem masterLine_no_nl {px src hdrs line : Str} (hpx : Char.ofNat 10 ∉ px)
    (hline : Char.ofNat 10 ∉ line) :
    Char.ofNat 10 ∉ masterLine px src hdrs line := by
  unfold masterLine
  split
  · split
    · exact keyLine_no_nl hpx hline
    · split
      · exact mediaLine_no_nl hpx hline
      · exact hline
  · split
    · split
      · exact hline
      · exact nl_not_in_proxyURL hpx (by decide)
    · exact hline

theorem mediaPlaylistLine_no_nl {px src hdrs line : Str}
    (hpx : Char.ofNat 10 ∉ px) (hline : Char.ofNat 10 ∉ line) :
    Char.ofNat 10 ∉ mediaPlaylistLine px src hdrs line := by
  unfold mediaPlaylistLine
  split
  · split
    · exact keyLine_no_nl hpx hline
    · exact hline
  · split
    · split
      · exact hline
      · exact nl_not_in_proxyURL hpx (by decide)
    · exact hline

theorem rewriteLine_no_nl (isM : Bool) (px src hdrs line : Str)
    (hpx : Char.ofNat 10 ∉ px) (hline : Char.ofNat 10 ∉ line) :
    Char.ofNat 10 ∉ rewriteLine isM px src hdrs line := by
  cases isM with
  | true => exact masterLine_no_nl hpx hline
  | false => exact mediaPlaylistLine_no_nl hpx hline

/-- With a newline-free proxy base, the rewriter output splits back into
exactly the per-line images of the input lines. -/
theorem rewriteOut_eq (body src px hdrs : Str) (hpx : Char.ofNat 10 ∉ px) :
    rewriteOut body src px hdrs =
      (splitNl body).map
        (rewriteLine (containsSub ("RESOLUTION=".data) body) px src hdrs) := by
  unfold rewriteOut rewriteM3U8
  apply splitNl_joinNl
  · intro h
    exact splitNl_ne_nil body (List.map_eq_nil.mp h)
  · intro l hl
    rw [List.mem_map] at hl
    obtain ⟨l0, hl0, rfl⟩ := hl
    exact rewriteLine_no_nl _ px src hdrs l0 hpx (splitNl_no_nl body l0 hl0)

theorem trimJS_nil_all {l : Str} (h : trimJS l = []) : ∀ c ∈ l, isWsJS c = true := by
  unfold trimJS at h
  rw [List.reverse_eq_nil_iff, List.dropWhile_eq_nil_iff] at h
  intro c hc
  have hsplit : c ∈ l.takeWhile isWsJS ++ l.dropWhile isWsJS := by
    rw [List.takeWhile_append_dropWhile]
    exact hc
  rcases List.mem_append.mp hsplit with hm | hm
  · exact List.mem_takeWhile_imp hm
  · exact h c (List.mem_reverse.mpr hm)

theorem blank_no_hash {l : Str} (h : trimJS l = []) :
    hasPfx l ("#".data) = false := by
  cases l with
  | nil => rfl
  | cons c t =>
    have hc : isWsJS c = true := trimJS_nil_all h c (List.mem_cons_self c t)
    have hcn : c ≠ '#' := by
      intro he
      rw [he] at hc
      exact absurd hc (by decide)
    show (decide (c = '#') && hasPfx t []) = false
    simp [hcn]

/-- Blank (whitespace-only) lines are passed through unchanged. -/
theorem blankLine_unchanged (isM : Bool) (px src hdrs l : Str)
    (h : trimJS l = []) : rewriteLine isM px src hdrs l = l := by
  have hhash := blank_no_hash h
  cases isM with
  | true =>
    show masterLine px src hdrs l = l
    unfold masterLine
    rw [if_neg (by simp [hhash]), if_neg (by simp [h])]
  | false =>
    show mediaPlaylistLine px src hdrs l = l
    unfold mediaPlaylistLine
    rw [if_neg (by simp [hhash]), if_neg (by simp [h])]

/-- A URL-reference line whose resolution fails is passed through
unchanged (fail-open). -/
theorem urlLine_resolveFail (isM : Bool) {px src hdrs l : Str}
    (hh : hasPfx l ("#".data) = false) (ht : trimJS l ≠ [])
    (hr : resolveRef l src = none) : rewriteLine isM px src hdrs l = l := by
  cases isM with
  | true =>
    show masterLine px src hdrs l = l
    unfold masterLine
    rw [if_neg (by simp [hh]), if_pos ht, hr]
  | false =>
    show mediaPlaylistLine px src hdrs l = l
    unfold mediaPlaylistLine
    rw [if_neg (by simp [hh]), if_pos ht, hr]

/-- A URL-reference line that resolves is rewritten to the proxy URL of
the branch's route. -/
theorem urlLine_resolved (isM : Bool) {px src hdrs l r : Str}
    (hh : hasPfx l ("#".data) = false) (ht : trimJS l ≠ [])
    (hr : resolveRef l src = some r) :
    rewriteLine isM px src hdrs l =
      proxyURL px (if isM then "/m3u8-proxy".data else "/ts-proxy".data) r hdrs := by
  cases isM with
  | true =>
    show masterLine px src hdrs l = _
    unfold masterLine
    rw [if_neg (by simp [hh]), if_pos ht, hr]
    rfl
  | false =>
    show mediaPlaylistLine px src hdrs l = _
    unfold mediaPlaylistLine
    rw [if_neg (by simp [hh]), if_pos ht, hr]
    rfl

/-- `#EXT-X-KEY:` lines are processed by `keyLine` in both branches. -/
theorem keyLine_both_kinds (isM : Bool) (px src hdrs l : Str)
    (hk : hasPfx l ("#EXT-X-KEY:".data) = true) :
    rewriteLine isM px src hdrs l = keyLine px src hdrs l := by
  have hk2 : hasPfx l ("#".data ++ "EXT-X-KEY:".data) = true := by
    have he : ("#".data ++ "EXT-X-KEY:".data : Str) = "#EXT-X-KEY:".data := by decide
    rw [he]
    exact hk
  have hh := hasPfx_of_append_left hk2
  cases isM with
  | true =>
    show masterLine px src hdrs l = _
    unfold masterLine
    rw [if_pos hh, if_pos hk]
  | false =>
    show mediaPlaylistLine px src hdrs l = _
    unfold mediaPlaylistLine
    rw [if_pos hh, if_pos hk]

theorem rewriteOut_get (body src px hdrs : Str) (hpx : Char.ofNat 10 ∉ px)
    (i : Nat) :
    (rewriteOut body src px hdrs)[i]? =
      Option.map (rewriteLine (containsSub ("RESOLUTION=".data) body) px src hdrs)
        ((splitNl body)[i]?) := by
  rw [rewriteOut_eq body src px hdrs hpx, List.getElem?_map]

theorem hasPfx_append_both (a : Str) {s p : Str} (h : hasPfx s p = true) :
    hasPfx (a ++ s) (a ++ p) = true := by
  induction a with
  | nil => simpa using h
  | cons c t ih => simp [hasPfx, ih]

theorem proxyURL_pfx (px route target hdrs : Str) :
    hasPfx (proxyURL px route target hdrs) (px ++ (route ++ "?url=".data)) = true := by
  unfold proxyURL
  have hassoc : px ++ route ++ "?url=".data ++ encodeURIComponent target ++
      "&headers=".data ++ encodeURIComponent hdrs =
      (px ++ (route ++ "?url=".data)) ++
        (encodeURIComponent target ++
          ("&headers=".data ++ encodeURIComponent hdrs)) := by
    simp [List.append_assoc]
  rw [hassoc]
  exact hasPfx_append _ _

/-! ### Claim theorems -/

/-- C2: the rewriter preserves line count and order (output split on
newline is the per-line image of the input split), every blank line is
emitted unchanged at the same index, and every URL-reference line whose
resolution fails is emitted unchanged (fail-open).  The proxy base, being
the serialization of a URL origin, contains no newline. -/
theorem C2_line_structure (body src px hdrs : Str)
    (hpx : Char.ofNat 10 ∉ px) :
    (rewriteOut body src px hdrs).length = (splitNl body).length ∧
    (∀ (i : Nat) (l : Str), (splitNl body)[i]? = some l → trimJS l = [] →
      (rewriteOut body src px hdrs)[i]? = some l) ∧
    (∀ (i : Nat) (l : Str), (splitNl body)[i]? = some l → hasPfx l ("#".data) = false →
      trimJS l ≠ [] → resolveRef l src = none →
      (rewriteOut body src px hdrs)[i]? = some l) := by
  refine ⟨?_, ?_, ?_⟩
  · rw [rewriteOut_eq body src px hdrs hpx, List.length_map]
  · intro i l hl hb
    rw [rewriteOut_get body src px hdrs hpx i, hl, Option.map_some',
      blankLine_unchanged _ px src hdrs l hb]
  · intro i l hl hh ht hr
    rw [rewriteOut_get body src px hdrs hpx i, hl, Option.map_some',
      urlLine_resolveFail _ hh ht hr]

/-- C2 witness: concrete playlist with a blank line and an unresolvable
reference line. -/
theorem C2_line_structure_witness :
    (rewriteOut ("#EXTM3U\n\nhttp://\nseg.ts".data)
        ("https://cdn.example.com/a/index.m3u8".data)
        ("https://proxy.local".data) ("\x7b\x7d".data)).length =
      (splitNl ("#EXTM3U\n\nhttp://\nseg.ts".data)).length ∧
    (rewriteOut ("#EXTM3U\n\nhttp://\nseg.ts".data)
        ("https://cdn.example.com/a/index.m3u8".data)
        ("https://proxy.local".data) ("\x7b\x7d".data))[1]? = some [] ∧
    (rewriteOut ("#EXTM3U\n\nhttp://\nseg.ts".data)
        ("https://cdn.example.com/a/index.m3u8".data)
        ("https://proxy.local".data) ("\x7b\x7d".data))[2]? =
      some ("http://".data) := by
  have h := C2_line_structure ("#EXTM3U\n\nhttp://\nseg.ts".data)
    ("https://cdn.example.com/a/index.m3u8".data)
    ("https://proxy.local".data) ("\x7b\x7d".data) (by decide)
  exact ⟨h.1, h.2.1 1 [] (by decide) (by decide),
    h.2.2 2 ("http://".data) (by decide) (by decide) (by decide) (by decide)⟩

/-- C1 as stated is false: (a) a non-comment, non-blank line whose URL
fails to resolve (here `http://`) is emitted unchanged and does not start
with the proxy prefix; (b) a rewritten `#EXT-X-KEY:` line whose quoted URI
starts with `#E` loses its leading `#` (the first occurrence of the URI
string in the line is at index 0), so a master playlist's output contains
a non-comment non-blank line that starts with the `/ts-proxy` prefix, not
the `/m3u8-proxy` one. -/
theorem C1_counterexample :
    ((rewriteOut ("#EXT-X-STREAM-INF:RESOLUTION=1920x1080\nhttp://".data)
        ("https://cdn.example.com/a/master.m3u8".data)
        ("https://proxy.local".data) ("\x7b\x7d".data))[1]? =
      some ("http://".data) ∧
      containsSub ("RESOLUTION=".data)
        ("#EXT-X-STREAM-INF:RESOLUTION=1920x1080\nhttp://".data) = true ∧
      hasPfx ("http://".data) ("#".data) = false ∧
      trimJS ("http://".data) ≠ [] ∧
      hasPfx ("http://".data)
        ("https://proxy.local".data ++ "/m3u8-proxy?url=".data) = false) ∧
    ((rewriteOut ("#EXT-X-KEY:URI=\"#E\"\n#EXT-X-STREAM-INF:RESOLUTION=1".data)
        ("https://cdn.example.com/a/master.m3u8".data)
        ("https://proxy.local".data) ("\x7b\x7d".data))[0]? =
      some (("https://proxy.local/ts-proxy?url=https%3A%2F%2Fcdn.example.com%2Fa%2Fmaster.m3u8%23E&headers=%7B%7D".data) ++
        ("XT-X-KEY:URI=\"#E\"".data)) ∧
      containsSub ("RESOLUTION=".data)
        ("#EXT-X-KEY:URI=\"#E\"\n#EXT-X-STREAM-INF:RESOLUTION=1".data) = true ∧
      hasPfx (("https://proxy.local/ts-proxy?url=https%3A%2F%2Fcdn.example.com%2Fa%2Fmaster.m3u8%23E&headers=%7B%7D".data) ++
          ("XT-X-KEY:URI=\"#E\"".data)) ("#".data) = false ∧
      trimJS (("https://proxy.local/ts-proxy?url=https%3A%2F%2Fcdn.example.com%2Fa%2Fmaster.m3u8%23E&headers=%7B%7D".data) ++
          ("XT-X-KEY:URI=\"#E\"".data)) ≠ [] ∧
      hasPfx (("https://proxy.local/ts-proxy?url=https%3A%2F%2Fcdn.example.com%2Fa%2Fmaster.m3u8%23E&headers=%7B%7D".data) ++
          ("XT-X-KEY:URI=\"#E\"".data))
        ("https://proxy.local".data ++ "/m3u8-proxy?url=".data) = false ∧
      (("https://proxy.local/ts-proxy?url=https%3A%2F%2Fcdn.example.com%2Fa%2Fmaster.m3u8%23E&headers=%7B%7D".data) ++
          ("XT-X-KEY:URI=\"#E\"".data)) ≠ ("#EXT-X-KEY:URI=\"#E\"".data)) := by
  decide

/-- C1 amended: classify by the INPUT line.  For every non-comment,
non-blank input line: if the code's URL resolution of the line succeeds,
the output line at the same index IS the proxy URL built from the
branch's route — `<proxyBase>/m3u8-proxy?url=…` in a master body,
`<proxyBase>/ts-proxy?url=…` in a media body — and in particular starts
with that prefix; if resolution fails, the output line is the input line
unchanged (fail-open). -/
theorem C1_amended (body src px hdrs : Str) (hpx : Char.ofNat 10 ∉ px) :
    ∀ (i : Nat) (l : Str), (splitNl body)[i]? = some l → hasPfx l ("#".data) = false →
      trimJS l ≠ [] →
      (containsSub ("RESOLUTION=".data) body = true →
        (∀ r, resolveRef l src = some r →
          (rewriteOut body src px hdrs)[i]? =
            some (proxyURL px ("/m3u8-proxy".data) r hdrs) ∧
          hasPfx (proxyURL px ("/m3u8-proxy".data) r hdrs)
            (px ++ "/m3u8-proxy?url=".data) = true) ∧
        (resolveRef l src = none →
          (rewriteOut body src px hdrs)[i]? = some l)) ∧
      (containsSub ("RESOLUTION=".data) body = false →
        (∀ r, resolveRef l src = some r →
          (rewriteOut body src px hdrs)[i]? =
            some (proxyURL px ("/ts-proxy".data) r hdrs) ∧
          hasPfx (proxyURL px ("/ts-proxy".data) r hdrs)
            (px ++ "/ts-proxy?url=".data) = true) ∧
        (resolveRef l src = none →
          (rewriteOut body src px hdrs)[i]? = some l)) := by
  intro i l hl hh ht
  constructor
  · intro hm
    constructor
    · intro r hr
      constructor
      · rw [rewriteOut_get body src px hdrs hpx i, hl, Option.map_some', hm,
          urlLine_resolved true hh ht hr]
        rfl
      · have he : ("/m3u8-proxy?url=".data : Str) =
            "/m3u8-proxy".data ++ "?url=".data := by decide
        rw [he]
        exact proxyURL_pfx px _ r hdrs
    · intro hr
      rw [rewriteOut_get body src px hdrs hpx i, hl, Option.map_some',
        urlLine_resolveFail _ hh ht hr]
  · intro hm
    constructor
    · intro r hr
      constructor
      · rw [rewriteOut_get body src px hdrs hpx i, hl, Option.map_some', hm,
          urlLine_resolved false hh ht hr]
        rfl
      · have he : ("/ts-proxy?url=".data : Str) =
            "/ts-proxy".data ++ "?url=".data := by decide
        rw [he]
        exact proxyURL_pfx px _ r hdrs
    · intro hr
      rw [rewriteOut_get body src px hdrs hpx i, hl, Option.map_some',
        urlLine_resolveFail _ hh ht hr]

/-- C1 amended witness: in a concrete master playlist the resolvable
variant line `v/i.m3u8` is rewritten to the proxy URL, which starts with
the `/m3u8-proxy?url=` prefix. -/
theorem C1_amended_witness :
    (rewriteOut ("#EXTM3U\n#EXT-X-STREAM-INF:RESOLUTION=1\nv/i.m3u8".data)
        ("https://cdn.example.com/a/master.m3u8".data)
        ("https://proxy.local".data) ("\x7b\x7d".data))[2]? =
      some (proxyURL ("https://proxy.local".data) ("/m3u8-proxy".data)
        ("https://cdn.example.com/a/v/i.m3u8".data) ("\x7b\x7d".data)) ∧
    hasPfx (proxyURL ("https://proxy.local".data) ("/m3u8-proxy".data)
        ("https://cdn.example.com/a/v/i.m3u8".data) ("\x7b\x7d".data))
      ("https://proxy.local".data ++ "/m3u8-proxy?url=".data) = true :=
  (((C1_amended ("#EXTM3U\n#EXT-X-STREAM-INF:RESOLUTION=1\nv/i.m3u8".data)
    ("https://cdn.example.com/a/master.m3u8".data)
    ("https://proxy.local".data) ("\x7b\x7d".data) (by decide)
    2 ("v/i.m3u8".data) (by decide) (by decide) (by decide)).1 (by decide)).1
    ("https://cdn.example.com/a/v/i.m3u8".data) (by decide))

theorem keyLine_extractFail {src px hdrs l : Str} (hE : extractURI l = none) :
    keyLine px src hdrs l = l := by
  unfold keyLine
  rw [hE]

theorem keyLine_resolveFail {src px hdrs l u : Str} (hE : extractURI l = some u)
    (hR : resolveRef u src = none) : keyLine px src hdrs l = l := by
  unfold keyLine
  rw [hE]
  show (match resolveRef u src with
    | none => l
    | some full => jsReplace l u (proxyURL px ("/ts-proxy".data) full hdrs)) = l
  rw [hR]

theorem keyLine_resolved {src px hdrs l u r : Str} (hE : extractURI l = some u)
    (hR : resolveRef u src = some r) :
    keyLine px src hdrs l = jsReplace l u (proxyURL px ("/ts-proxy".data) r hdrs) := by
  unfold keyLine
  rw [hE]
  show (match resolveRef u src with
    | none => l
    | some full => jsReplace l u (proxyURL px ("/ts-proxy".data) full hdrs)) = _
  rw [hR]

/-- C3 as stated is false: the code resolves a quoted URI that starts
with `http` as a standalone absolute URL, not against the source URL.
For `URI="httpkey.bin"` the value resolves against the source URL (so the
claim demands a rewrite), but the code's absolute parse of `httpkey.bin`
fails and the line is emitted unchanged. -/
theorem C3_counterexample :
    extractURI ("#EXT-X-KEY:METHOD=AES-128,URI=\"httpkey.bin\"".data) =
      some ("httpkey.bin".data) ∧
    safeCreateURL ("httpkey.bin".data)
        (some ("https://cdn.example.com/a/index.m3u8".data)) =
      some ("https://cdn.example.com/a/httpkey.bin".data) ∧
    rewriteOut ("#EXT-X-KEY:METHOD=AES-128,URI=\"httpkey.bin\"".data)
        ("https://cdn.example.com/a/index.m3u8".data)
        ("https://proxy.local".data) ("\x7b\x7d".data) =
      [("#EXT-X-KEY:METHOD=AES-128,URI=\"httpkey.bin\"".data)] ∧
    ("#EXT-X-KEY:METHOD=AES-128,URI=\"httpkey.bin\"".data : Str) ≠
      jsReplace ("#EXT-X-KEY:METHOD=AES-128,URI=\"httpkey.bin\"".data)
        ("httpkey.bin".data)
        (proxyURL ("https://proxy.local".data) ("/ts-proxy".data)
          ("https://cdn.example.com/a/httpkey.bin".data) ("\x7b\x7d".data)) := by
  decide

/-- C3 amended: in both playlist kinds, a `#EXT-X-KEY:` line is rewritten
by replacing the first occurrence of the extracted quoted URI value with a
`/ts-proxy` proxy URL (never `/m3u8-proxy`), where the value is resolved
by the code's rule (standalone absolute parse when it starts with `http`,
else against the source URL); on extraction or resolution failure the
line is emitted unchanged. -/
theorem C3_amended (body src px hdrs : Str) (hpx : Char.ofNat 10 ∉ px) :
    ∀ (i : Nat) (l : Str), (splitNl body)[i]? = some l →
      hasPfx l ("#EXT-X-KEY:".data) = true →
      (extractURI l = none → (rewriteOut body src px hdrs)[i]? = some l) ∧
      (∀ u, extractURI l = some u → resolveRef u src = none →
        (rewriteOut body src px hdrs)[i]? = some l) ∧
      (∀ u r, extractURI l = some u → resolveRef u src = some r →
        (rewriteOut body src px hdrs)[i]? =
          some (jsReplace l u (proxyURL px ("/ts-proxy".data) r hdrs))) := by
  intro i l hl hk
  have hrl : rewriteLine (containsSub ("RESOLUTION=".data) body) px src hdrs l =
      keyLine px src hdrs l :=
    keyLine_both_kinds _ px src hdrs l hk
  refine ⟨?_, ?_, ?_⟩
  · intro hE
    rw [rewriteOut_get body src px hdrs hpx i, hl, Option.map_some', hrl,
      keyLine_extractFail hE]
  · intro u hE hR
    rw [rewriteOut_get body src px hdrs hpx i, hl, Option.map_some', hrl,
      keyLine_resolveFail hE hR]
  · intro u r hE hR
    rw [rewriteOut_get body src px hdrs hpx i, hl, Option.map_some', hrl,
      keyLine_resolved hE hR]

/-- C3 amended witness: a key line inside a master playlist is routed to
`/ts-proxy`. -/
theorem C3_amended_witness :
    (rewriteOut
        ("#EXT-X-KEY:METHOD=AES-128,URI=\"k.key\"\n#EXT-X-STREAM-INF:RESOLUTION=1".data)
        ("https://cdn.example.com/a/index.m3u8".data)
        ("https://proxy.local".data) ("\x7b\x7d".data))[0]? =
      some (jsReplace ("#EXT-X-KEY:METHOD=AES-128,URI=\"k.key\"".data)
        ("k.key".data)
        (proxyURL ("https://proxy.local".data) ("/ts-proxy".data)
          ("https://cdn.example.com/a/k.key".data) ("\x7b\x7d".data))) :=
  (C3_amended
    ("#EXT-X-KEY:METHOD=AES-128,URI=\"k.key\"\n#EXT-X-STREAM-INF:RESOLUTION=1".data)
    ("https://cdn.example.com/a/index.m3u8".data)
    ("https://proxy.local".data) ("\x7b\x7d".data) (by decide)
    0 ("#EXT-X-KEY:METHOD=AES-128,URI=\"k.key\"".data) (by decide)
    (by decide)).2.2 ("k.key".data) ("https://cdn.example.com/a/k.key".data)
    (by decide) (by decide)

/-- C4: the concrete scenario from the spec: master playlist with one
1080p variant, relative reference `high/index.m3u8`, proxy base
`https://proxy.local`, empty forwarded headers — the third output line is
the percent-encoded `/m3u8-proxy` URL. -/
theorem C4_scenario :
    (rewriteOut ("#EXTM3U\n#EXT-X-STREAM-INF:RESOLUTION=1920x1080\nhigh/index.m3u8\n".data)
      ("https://cdn.example.com/a/master.m3u8".data)
      ("https://proxy.local".data) ("\x7b\x7d".data))[2]? =
    some ("https://proxy.local/m3u8-proxy?url=https%3A%2F%2Fcdn.example.com%2Fa%2Fhigh%2Findex.m3u8&headers=%7B%7D".data) := by
  decide

/-- Everything after the first occurrence of `pat` (empty if absent). -/
def dropThroughFirst (pat : Str) : Str → Str
  | [] => []
  | c :: t =>
    if hasPfx (c :: t) pat then (c :: t).drop pat.length
    else dropThroughFirst pat t

/-- The `url` query parameter of a rewritten line: the text between the
first `?url=` and the next `&`. -/
def urlParamOf (s : Str) : Str :=
  (dropThroughFirst ('?' :: "url=".data) s).takeWhile (fun c => c != '&')

theorem dropThroughFirst_qm {a : Str} (pr b : Str) (hq : '?' ∉ a) :
    dropThroughFirst ('?' :: pr) (a ++ ('?' :: pr) ++ b) = b := by
  induction a with
  | nil =>
    simp only [List.nil_append, List.cons_append, dropThroughFirst]
    rw [if_pos (by simpa using hasPfx_append ('?' :: pr) b)]
    simp only [List.length_cons, List.drop_succ_cons]
    exact List.drop_left pr b
  | cons c t ih =>
    have hc : c ≠ '?' := fun h => hq (h ▸ List.mem_cons_self c t)
    simp only [List.cons_append, dropThroughFirst]
    rw [if_neg (by simp [hasPfx, hc])]
    exact ih (fun hm => hq (List.mem_cons_of_mem c hm))

theorem takeWhile_amp {xs : Str} (ys : Str) (h : '&' ∉ xs) :
    (xs ++ '&' :: ys).takeWhile (fun c => c != '&') = xs := by
  induction xs with
  | nil => simp [List.takeWhile_cons]
  | cons c t ih =>
    have hc : c ≠ '&' := fun hcc => h (hcc ▸ List.mem_cons_self c t)
    have hb : (c != '&') = true := by simp [hc]
    simp only [List.cons_append, List.takeWhile_cons, hb, if_true]
    rw [ih (fun hm => h (List.mem_cons_of_mem c hm))]

/-- Extracting the `url` parameter of a rewritten proxy URL recovers the
percent-encoded target. -/
theorem urlParamOf_proxyURL (px route target hdrs : Str)
    (hq : '?' ∉ px) (hqr : '?' ∉ route) :
    urlParamOf (proxyURL px route target hdrs) = encodeURIComponent target := by
  unfold urlParamOf proxyURL
  have hqa : '?' ∉ px ++ route := by
    intro hm
    rcases List.mem_append.mp hm with hm | hm
    exacts [hq hm, hqr hm]
  have hshape : px ++ route ++ "?url=".data ++ encodeURIComponent target ++
      "&headers=".data ++ encodeURIComponent hdrs =
      (px ++ route) ++ ('?' :: "url=".data) ++
        (encodeURIComponent target ++
          '&' :: ("headers=".data ++ encodeURIComponent hdrs)) := by
    simp [List.append_assoc]
  rw [hshape, dropThroughFirst_qm ("url=".data) _ hqa]
  exact takeWhile_amp _ (amp_not_in_enc target)

theorem media_not_key {l : Str} (hm : hasPfx l ("#EXT-X-MEDIA:".data) = true) :
    hasPfx l ("#EXT-X-KEY:".data) = false := by
  have h := hasPfx_drop hm
  generalize l.drop (("#EXT-X-MEDIA:".data : Str).length) = r at h
  subst h
  simp [hasPfx]

/-- In the master branch a `#EXT-X-MEDIA:` line is processed by
`mediaLine`. -/
theorem mediaLine_branch {px src hdrs l : Str}
    (hm : hasPfx l ("#EXT-X-MEDIA:".data) = true) :
    masterLine px src hdrs l = mediaLine px src hdrs l := by
  have hm2 : hasPfx l ("#".data ++ "EXT-X-MEDIA:".data) = true := by
    have he : ("#".data ++ "EXT-X-MEDIA:".data : Str) = "#EXT-X-MEDIA:".data := by
      decide
    rw [he]
    exact hm
  have hh := hasPfx_of_append_left hm2
  have hk := media_not_key hm
  unfold masterLine
  rw [if_pos hh, if_neg (by simp [hk]), if_pos hm]

theorem mediaLine_resolved {src px hdrs l u r : Str} (hE : extractURI l = some u)
    (hR : resolveRef u src = some r) :
    mediaLine px src hdrs l =
      jsReplace l u (proxyURL px ("/m3u8-proxy".data) r hdrs) := by
  unfold mediaLine
  rw [hE]
  show (match resolveRef u src with
    | none => l
    | some full => jsReplace l u (proxyURL px ("/m3u8-proxy".data) full hdrs)) = _
  rw [hR]

/-- C5 as stated is false: the `url` parameter embedded in the rewritten
line decodes to the CODE's resolution of the reference, which is not
always the reference resolved against the source URL.  For the segment
line `https:seg.ts` the code (whose resolution parses any reference
starting with `http` absolutely) embeds `https://seg.ts/`, while
resolving against the source URL gives
`https://cdn.example.com/a/seg.ts`. -/
theorem C5_counterexample :
    resolveRef ("https:seg.ts".data)
        ("https://cdn.example.com/a/index.m3u8".data) =
      some ("https://seg.ts/".data) ∧
    safeCreateURL ("https:seg.ts".data)
        (some ("https://cdn.example.com/a/index.m3u8".data)) =
      some ("https://cdn.example.com/a/seg.ts".data) ∧
    (rewriteOut ("#EXTM3U\nhttps:seg.ts".data)
        ("https://cdn.example.com/a/index.m3u8".data)
        ("https://proxy.local".data) ("\x7b\x7d".data))[1]? =
      some (proxyURL ("https://proxy.local".data) ("/ts-proxy".data)
        ("https://seg.ts/".data) ("\x7b\x7d".data)) ∧
    decodeURIComponent (urlParamOf
        (proxyURL ("https://proxy.local".data) ("/ts-proxy".data)
          ("https://seg.ts/".data) ("\x7b\x7d".data))) =
      some ("https://seg.ts/".data) ∧
    some (("https://seg.ts/".data : Str)) ≠
      some ("https://cdn.example.com/a/seg.ts".data) := by
  decide

/-- C5 amended: round trip to the CODE's resolution.  For every
URL-reference line the rewriter rewrites, percent-decoding the `url`
query parameter of the output line yields exactly the absolute URL the
code resolved the reference to (absolute parse when the reference starts
with `http`, else resolution against the source URL); for `#EXT-X-KEY:`
lines in both playlist kinds and `#EXT-X-MEDIA:` lines in master
playlists, the parameter embedded in the rewritten line decodes back to
the code's resolved URL likewise. -/
theorem C5_amended (body src px hdrs : Str) (hpx : Char.ofNat 10 ∉ px)
    (hq : '?' ∉ px) :
    (∀ (i : Nat) (l r : Str), (splitNl body)[i]? = some l →
      hasPfx l ("#".data) = false → trimJS l ≠ [] → resolveRef l src = some r →
      ∃ o, (rewriteOut body src px hdrs)[i]? = some o ∧
        decodeURIComponent (urlParamOf o) = some r) ∧
    (∀ (i : Nat) (l u r : Str), (splitNl body)[i]? = some l →
      hasPfx l ("#EXT-X-KEY:".data) = true → extractURI l = some u →
      resolveRef u src = some r →
      (rewriteOut body src px hdrs)[i]? =
        some (jsReplace l u (proxyURL px ("/ts-proxy".data) r hdrs)) ∧
      decodeURIComponent (encodeURIComponent r) = some r) ∧
    (∀ (i : Nat) (l u r : Str), containsSub ("RESOLUTION=".data) body = true →
      (splitNl body)[i]? = some l →
      hasPfx l ("#EXT-X-MEDIA:".data) = true → extractURI l = some u →
      resolveRef u src = some r →
      (rewriteOut body src px hdrs)[i]? =
        some (jsReplace l u (proxyURL px ("/m3u8-proxy".data) r hdrs)) ∧
      decodeURIComponent (encodeURIComponent r) = some r) := by
  refine ⟨?_, ?_, ?_⟩
  · intro i l r hl hh ht hr
    refine ⟨proxyURL px
      (if containsSub ("RESOLUTION=".data) body then "/m3u8-proxy".data
        else "/ts-proxy".data) r hdrs, ?_, ?_⟩
    · rw [rewriteOut_get body src px hdrs hpx i, hl, Option.map_some',
        urlLine_resolved _ hh ht hr]
    · rw [urlParamOf_proxyURL px _ r hdrs hq
        (by cases containsSub ("RESOLUTION=".data) body <;> decide)]
      exact decode_encode r
  · intro i l u r hl hk hE hR
    refine ⟨?_, decode_encode r⟩
    rw [rewriteOut_get body src px hdrs hpx i, hl, Option.map_some',
      keyLine_both_kinds _ px src hdrs l hk, keyLine_resolved hE hR]
  · intro i l u r hmaster hl hmed hE hR
    refine ⟨?_, decode_encode r⟩
    rw [rewriteOut_get body src px hdrs hpx i, hl, Option.map_some', hmaster]
    show some (masterLine px src hdrs l) = _
    rw [mediaLine_branch hmed, mediaLine_resolved hE hR]

/-- C5 amended witness: the spec's media-playlist segment scenario, plus
an `#EXT-X-MEDIA:` audio line in a master playlist. -/
theorem C5_amended_witness :
    (∃ o, (rewriteOut ("#EXTM3U\nseg001.ts".data)
        ("https://cdn.example.com/a/index.m3u8".data)
        ("https://proxy.local".data) ("\x7b\x7d".data))[1]? = some o ∧
      decodeURIComponent (urlParamOf o) =
        some ("https://cdn.example.com/a/seg001.ts".data)) ∧
    (rewriteOut ("#EXT-X-MEDIA:TYPE=AUDIO,URI=\"a.m3u8\"\n#EXT-X-STREAM-INF:RESOLUTION=1\nv.m3u8".data)
        ("https://cdn.example.com/a/master.m3u8".data)
        ("https://proxy.local".data) ("\x7b\x7d".data))[0]? =
      some (jsReplace ("#EXT-X-MEDIA:TYPE=AUDIO,URI=\"a.m3u8\"".data)
        ("a.m3u8".data)
        (proxyURL ("https://proxy.local".data) ("/m3u8-proxy".data)
          ("https://cdn.example.com/a/a.m3u8".data) ("\x7b\x7d".data))) :=
  ⟨(C5_amended ("#EXTM3U\nseg001.ts".data)
      ("https://cdn.example.com/a/index.m3u8".data)
      ("https://proxy.local".data) ("\x7b\x7d".data) (by decide) (by decide)).1
      1 ("seg001.ts".data) ("https://cdn.example.com/a/seg001.ts".data)
      (by decide) (by decide) (by decide) (by decide),
    ((C5_amended ("#EXT-X-MEDIA:TYPE=AUDIO,URI=\"a.m3u8\"\n#EXT-X-STREAM-INF:RESOLUTION=1\nv.m3u8".data)
      ("https://cdn.example.com/a/master.m3u8".data)
      ("https://proxy.local".data) ("\x7b\x7d".data) (by decide) (by decide)).2.2
      0 ("#EXT-X-MEDIA:TYPE=AUDIO,URI=\"a.m3u8\"".data) ("a.m3u8".data)
      ("https://cdn.example.com/a/a.m3u8".data)
      (by decide) (by decide) (by decide) (by decide) (by decide)).1⟩

/-- Modelled from the spec: the resolver order C6 claims — scheme test
first, then the `//` prefix, and only then the base resolution. -/
def specResolveC6 (requrl : Str) (baseUrl : Option Str) : Option Str :=
  if httpSchemeTest requrl then safeCreateURL requrl none
  else if hasPfx requrl ("//".data) then
    safeCreateURL ("https:".data ++ requrl) none
  else
    match baseUrl with
    | some b => safeCreateURL requrl (some b)
    | none => none

/-- Modelled from the spec: the amended resolver order — with a base, the
reference is resolved against the base immediately (so a
protocol-relative reference inherits the base's scheme); without a base,
the http(s) scheme test, then the `https:`-prefixed `//` branch, else
`null`; every parse failure yields `null`. -/
def specResolveC6Amended (requrl : Str) (baseUrl : Option Str) : Option Str :=
  match baseUrl with
  | some b => safeCreateURL requrl (some b)
  | none =>
    if httpSchemeTest requrl then safeCreateURL requrl none
    else if hasPfx requrl ("//".data) then
      safeCreateURL ("https:".data ++ requrl) none
    else none

/-- C6 as stated is false: `parseURL` consults the base FIRST, so a
protocol-relative reference resolved against an `http:` base inherits
`http:`, while the claimed order would prefix `https:`. -/
theorem C6_counterexample :
    parseURLm ("//h/p".data) (some ("http://b/".data)) =
      some ("http://h/p".data) ∧
    specResolveC6 ("//h/p".data) (some ("http://b/".data)) =
      some ("https://h/p".data) ∧
    parseURLm ("//h/p".data) (some ("http://b/".data)) ≠
      specResolveC6 ("//h/p".data) (some ("http://b/".data)) := by
  decide

/-- C6 amended: the resolver never throws (it is a total function into an
option), and applies, in order: if a base is supplied, the input is
resolved against the base per WHATWG rules immediately — the scheme test
and the `//` check are never consulted; otherwise, an input matching
`/^https?:\/\//i` is parsed absolutely; otherwise an input starting with
`//` is parsed with `https:` prefixed; otherwise the result is `null`;
every parse failure is `null` (`safeCreateURL` returns an option, so
failures propagate as `none`).  The whole resolver refines the amended
spec order `specResolveC6Amended`. -/
theorem C6_amended :
    (∀ requrl b, parseURLm requrl (some b) = safeCreateURL requrl (some b)) ∧
    (∀ requrl, httpSchemeTest requrl = true →
      parseURLm requrl none = safeCreateURL requrl none) ∧
    (∀ requrl, httpSchemeTest requrl = false →
      hasPfx requrl ("//".data) = true →
      parseURLm requrl none = safeCreateURL ("https:".data ++ requrl) none) ∧
    (∀ requrl, httpSchemeTest requrl = false →
      hasPfx requrl ("//".data) = false → parseURLm requrl none = none) ∧
    (∀ requrl baseUrl,
      parseURLm requrl baseUrl = specResolveC6Amended requrl baseUrl) := by
  refine ⟨?_, ?_, ?_, ?_, ?_⟩
  · intro requrl b
    rfl
  · intro requrl h
    simp [parseURLm, h]
  · intro requrl h1 h2
    simp [parseURLm, h1, h2]
  · intro requrl h1 h2
    simp [parseURLm, h1, h2]
  · intro requrl baseUrl
    cases baseUrl <;> rfl

/-- C6 amended witness: the base branch wins over the scheme test for a
protocol-relative input; each base-less branch at a concrete input. -/
theorem C6_amended_witness :
    parseURLm ("//h/p".data) (some ("http://b/".data)) =
      safeCreateURL ("//h/p".data) (some ("http://b/".data)) ∧
    parseURLm ("HTTPS://h/p".data) none =
      safeCreateURL ("HTTPS://h/p".data) none ∧
    parseURLm ("//h/p".data) none =
      safeCreateURL ("https:".data ++ "//h/p".data) none ∧
    parseURLm ("rel/x.ts".data) none = none :=
  ⟨C6_amended.1 ("//h/p".data) ("http://b/".data),
    C6_amended.2.1 ("HTTPS://h/p".data) (by decide),
    C6_amended.2.2.1 ("//h/p".data) (by decide) (by decide),
    C6_amended.2.2.2.1 ("rel/x.ts".data) (by decide) (by decide)⟩

/-! ### Handler case analyses -/

theorem m3u8Validate_noUrl {rq : Req} (h : rq.urlParam = none) :
    m3u8Validate rq = Sum.inl ⟨400, "URL parameter is required".data, []⟩ := by
  obtain ⟨m, u, hp, px⟩ := rq
  cases u with
  | none => rfl
  | some t => cases h

theorem m3u8Validate_emptyUrl {rq : Req} (h : rq.urlParam = some []) :
    m3u8Validate rq = Sum.inl ⟨400, "URL parameter is required".data, []⟩ := by
  obtain ⟨m, u, hp, px⟩ := rq
  cases u with
  | none => cases h
  | some t2 =>
    obtain rfl : t2 = ([] : Str) := Option.some.inj h
    simp only [m3u8Validate]
    rw [if_pos trivial]

theorem m3u8Validate_badHeaders {rq : Req} {t : Str} (hu : rq.urlParam = some t)
    (hne : t ≠ []) (hb : headersBad rq = true) :
    m3u8Validate rq = Sum.inl ⟨400, "Invalid headers format".data, []⟩ := by
  obtain ⟨m, u, hp, px⟩ := rq
  cases u with
  | none => cases hu
  | some t2 =>
    obtain rfl : t2 = t := Option.some.inj hu
    simp only [m3u8Validate]
    rw [if_neg hne, if_pos hb]

theorem m3u8Validate_badTarget {rq : Req} {t : Str} (hu : rq.urlParam = some t)
    (hne : t ≠ []) (hb : headersBad rq = false)
    (hv : safeCreateURL t none = none) :
    m3u8Validate rq =
      Sum.inl ⟨400, "Invalid target URL: ".data ++ t, [(acaoH, star)]⟩ := by
  obtain ⟨m, u, hp, px⟩ := rq
  cases u with
  | none => cases hu
  | some t2 =>
    obtain rfl : t2 = t := Option.some.inj hu
    simp only [m3u8Validate]
    rw [if_neg hne, if_neg (by simp [hb]), hv]

theorem m3u8Validate_ok {rq : Req} {t v : Str} (hu : rq.urlParam = some t)
    (hne : t ≠ []) (hb : headersBad rq = false)
    (hv : safeCreateURL t none = some v) :
    m3u8Validate rq = Sum.inr v := by
  obtain ⟨m, u, hp, px⟩ := rq
  cases u with
  | none => cases hu
  | some t2 =>
    obtain rfl : t2 = t := Option.some.inj hu
    simp only [m3u8Validate]
    rw [if_neg hne, if_neg (by simp [hb]), hv]

theorem tsValidate_noUrl {rq : Req} (h : rq.urlParam = none) :
    tsValidate rq = Sum.inl ⟨400, "URL parameter is required".data, []⟩ := by
  obtain ⟨m, u, hp, px⟩ := rq
  cases u with
  | none => rfl
  | some t => cases h

theorem tsValidate_emptyUrl {rq : Req} (h : rq.urlParam = some []) :
    tsValidate rq = Sum.inl ⟨400, "URL parameter is required".data, []⟩ := by
  obtain ⟨m, u, hp, px⟩ := rq
  cases u with
  | none => cases h
  | some t2 =>
    obtain rfl : t2 = ([] : Str) := Option.some.inj h
    simp only [tsValidate]
    rw [if_pos trivial]

theorem tsValidate_badHeaders {rq : Req} {t : Str} (hu : rq.urlParam = some t)
    (hne : t ≠ []) (hb : headersBad rq = true) :
    tsValidate rq = Sum.inl ⟨400, "Invalid headers format".data, []⟩ := by
  obtain ⟨m, u, hp, px⟩ := rq
  cases u with
  | none => cases hu
  | some t2 =>
    obtain rfl : t2 = t := Option.some.inj hu
    simp only [tsValidate]
    rw [if_neg hne, if_pos hb]

theorem tsValidate_ok {rq : Req} {t : Str} (hu : rq.urlParam = some t)
    (hne : t ≠ []) (hb : headersBad rq = false) : tsValidate rq = Sum.inr t := by
  obtain ⟨m, u, hp, px⟩ := rq
  cases u with
  | none => cases hu
  | some t2 =>
    obtain rfl : t2 = t := Option.some.inj hu
    simp only [tsValidate]
    rw [if_neg hne, if_neg (by simp [hb])]

theorem tsAltValidate_ok {rq : Req} {t v : Str} (hu : rq.urlParam = some t)
    (hne : t ≠ []) (hb : headersBad rq = false)
    (hv : safeCreateURL t none = some v) :
    tsAltValidate rq = Sum.inr v := by
  obtain ⟨m, u, hp, px⟩ := rq
  cases u with
  | none => cases hu
  | some t2 =>
    obtain rfl : t2 = t := Option.some.inj hu
    simp only [tsAltValidate]
    rw [if_neg hne, if_neg (by simp [hb]), hv]

/-- The empty string does not parse as a URL. -/
theorem safeCreateURL_nil : safeCreateURL [] none = none := by decide

/-- A target that parses as a URL is in particular non-empty. -/
theorem ne_nil_of_parses {t : Str} {u : Str} (hv : safeCreateURL t none = some u) :
    t ≠ [] := by
  intro h
  subst h
  rw [safeCreateURL_nil] at hv
  cases hv

theorem m3u8Handler_eq_of_validate {rq : Req} {up : Upstream} {r : HResp}
    (hm : rq.method ≠ "OPTIONS".data) (hv : m3u8Validate rq = Sum.inl r) :
    m3u8Handler rq up = r := by
  unfold m3u8Handler
  rw [if_neg hm, hv]

theorem m3u8Handler_eq_of_ok {rq : Req} {up : Upstream} {v : Str}
    (hm : rq.method ≠ "OPTIONS".data) (hv : m3u8Validate rq = Sum.inr v) :
    m3u8Handler rq up = m3u8FetchPhase rq v up := by
  unfold m3u8Handler
  rw [if_neg hm, hv]

theorem tsHandler_eq_of_validate {rq : Req} {up : Upstream} {r : HResp}
    (hm : rq.method ≠ "OPTIONS".data) (hv : tsValidate rq = Sum.inl r) :
    tsHandler rq up = r := by
  unfold tsHandler
  rw [if_neg hm, hv]

theorem tsHandler_eq_of_ok {rq : Req} {up : Upstream} {t : Str}
    (hm : rq.method ≠ "OPTIONS".data) (hv : tsValidate rq = Sum.inr t) :
    tsHandler rq up = tsFetchPhase t up := by
  unfold tsHandler
  rw [if_neg hm, hv]

theorem m3u8FetchPhase_cases (rq : Req) (v : Str) (up : Upstream) :
    ((m3u8FetchPhase rq v up).status = 500 ∧
      (m3u8FetchPhase rq v up).headers = [(acaoH, star)]) ∨
    ((m3u8FetchPhase rq v up).status = 200 ∧
      (m3u8FetchPhase rq v up).headers = m3u8OkHeaders) := by
  cases up with
  | netErr m => exact Or.inl ⟨rfl, rfl⟩
  | resp st stx body =>
    by_cases hok : isOk st = true
    · right
      have he : m3u8FetchPhase rq v (Upstream.resp st stx body) =
          ⟨200, rewriteM3U8 body v rq.proxyBase (hdrsJsonOf rq), m3u8OkHeaders⟩ := by
        simp only [m3u8FetchPhase]
        rw [if_pos hok]
      rw [he]
      exact ⟨rfl, rfl⟩
    · left
      have he : m3u8FetchPhase rq v (Upstream.resp st stx body) =
          ⟨500, "Failed to fetch M3U8: ".data ++ natToStr st ++ ' ' :: stx,
            [(acaoH, star)]⟩ := by
        simp only [m3u8FetchPhase]
        rw [if_neg hok]
      rw [he]
      exact ⟨rfl, rfl⟩

theorem tsUpstreamResp_cases (up : Upstream) :
    ((tsUpstreamResp up).status = 500 ∧
      (tsUpstreamResp up).headers = [(acaoH, star)]) ∨
    ((tsUpstreamResp up).status = 200 ∧
      (tsUpstreamResp up).headers = tsOkHeaders) := by
  cases up with
  | netErr m => exact Or.inl ⟨rfl, rfl⟩
  | resp st stx body =>
    by_cases hok : isOk st = true
    · right
      have he : tsUpstreamResp (Upstream.resp st stx body) =
          ⟨200, body, tsOkHeaders⟩ := by
        simp only [tsUpstreamResp]
        rw [if_pos hok]
      rw [he]
      exact ⟨rfl, rfl⟩
    · left
      have he : tsUpstreamResp (Upstream.resp st stx body) =
          ⟨500, "Failed to fetch TS file: ".data ++ natToStr st ++ ' ' :: stx,
            [(acaoH, star)]⟩ := by
        simp only [tsUpstreamResp]
        rw [if_neg hok]
      rw [he]
      exact ⟨rfl, rfl⟩

theorem tsFetchPhase_cases (t : Str) (up : Upstream) :
    ((tsFetchPhase t up).status = 500 ∧
      (tsFetchPhase t up).headers = [(acaoH, star)]) ∨
    ((tsFetchPhase t up).status = 200 ∧
      (tsFetchPhase t up).headers = tsOkHeaders) := by
  unfold tsFetchPhase
  cases safeCreateURL t none with
  | none => exact Or.inl ⟨rfl, rfl⟩
  | some w => exact tsUpstreamResp_cases up

/-- Every early error response of the m3u8 validation is exactly one of
the three 400 responses the code builds: missing url (no headers), bad
headers JSON (no headers), invalid target (origin header only). -/
theorem m3u8Validate_inl_cases {rq : Req} {r : HResp}
    (h : m3u8Validate rq = Sum.inl r) :
    r = ⟨400, "URL parameter is required".data, []⟩ ∨
    r = ⟨400, "Invalid headers format".data, []⟩ ∨
    ∃ t, r = ⟨400, "Invalid target URL: ".data ++ t, [(acaoH, star)]⟩ := by
  cases hu : rq.urlParam with
  | none =>
    rw [m3u8Validate_noUrl hu] at h
    obtain rfl := Sum.inl.inj h
    exact Or.inl rfl
  | some t =>
    by_cases hne : t = []
    · subst hne
      rw [m3u8Validate_emptyUrl hu] at h
      obtain rfl := Sum.inl.inj h
      exact Or.inl rfl
    · by_cases hb : headersBad rq = true
      · rw [m3u8Validate_badHeaders hu hne hb] at h
        obtain rfl := Sum.inl.inj h
        exact Or.inr (Or.inl rfl)
      · have hb2 : headersBad rq = false := by simpa using hb
        cases hv : safeCreateURL t none with
        | none =>
          rw [m3u8Validate_badTarget hu hne hb2 hv] at h
          obtain rfl := Sum.inl.inj h
          exact Or.inr (Or.inr ⟨t, rfl⟩)
        | some v =>
          rw [m3u8Validate_ok hu hne hb2 hv] at h
          simp at h

theorem m3u8Validate_inl {rq : Req} {r : HResp} (h : m3u8Validate rq = Sum.inl r) :
    r.status = 400 ∧ (r.headers = [] ∨ r.headers = [(acaoH, star)]) := by
  rcases m3u8Validate_inl_cases h with rfl | rfl | ⟨t, rfl⟩
  · exact ⟨rfl, Or.inl rfl⟩
  · exact ⟨rfl, Or.inl rfl⟩
  · exact ⟨rfl, Or.inr rfl⟩

/-- Every early error response of the src ts-proxy validation is one of
the two headerless 400 responses. -/
theorem tsValidate_inl_cases {rq : Req} {r : HResp}
    (h : tsValidate rq = Sum.inl r) :
    r = ⟨400, "URL parameter is required".data, []⟩ ∨
    r = ⟨400, "Invalid headers format".data, []⟩ := by
  cases hu : rq.urlParam with
  | none =>
    rw [tsValidate_noUrl hu] at h
    obtain rfl := Sum.inl.inj h
    exact Or.inl rfl
  | some t =>
    by_cases hne : t = []
    · subst hne
      rw [tsValidate_emptyUrl hu] at h
      obtain rfl := Sum.inl.inj h
      exact Or.inl rfl
    · by_cases hb : headersBad rq = true
      · rw [tsValidate_badHeaders hu hne hb] at h
        obtain rfl := Sum.inl.inj h
        exact Or.inr rfl
      · have hb2 : headersBad rq = false := by simpa using hb
        rw [tsValidate_ok hu hne hb2] at h
        simp at h

theorem tsValidate_inl {rq : Req} {r : HResp} (h : tsValidate rq = Sum.inl r) :
    r.status = 400 ∧ r.headers = [] := by
  rcases tsValidate_inl_cases h with rfl | rfl
  · exact ⟨rfl, rfl⟩
  · exact ⟨rfl, rfl⟩

theorem m3u8Handler_enum (rq : Req) (up : Upstream) :
    (rq.method = "OPTIONS".data ∧ m3u8Handler rq up = optionsResp) ∨
    ((m3u8Handler rq up).status = 400 ∧
      ((m3u8Handler rq up).headers = [] ∨
        (m3u8Handler rq up).headers = [(acaoH, star)])) ∨
    ((m3u8Handler rq up).status = 500 ∧
      (m3u8Handler rq up).headers = [(acaoH, star)]) ∨
    ((m3u8Handler rq up).status = 200 ∧
      (m3u8Handler rq up).headers = m3u8OkHeaders) := by
  by_cases hm : rq.method = "OPTIONS".data
  · left
    refine ⟨hm, ?_⟩
    unfold m3u8Handler
    rw [if_pos hm]
  · right
    cases hv : m3u8Validate rq with
    | inl r =>
      left
      rw [m3u8Handler_eq_of_validate hm hv]
      exact m3u8Validate_inl hv
    | inr v =>
      right
      rw [m3u8Handler_eq_of_ok hm hv]
      exact m3u8FetchPhase_cases rq v up

theorem tsHandler_enum (rq : Req) (up : Upstream) :
    (rq.method = "OPTIONS".data ∧ tsHandler rq up = optionsResp) ∨
    ((tsHandler rq up).status = 400 ∧ (tsHandler rq up).headers = []) ∨
    ((tsHandler rq up).status = 500 ∧
      (tsHandler rq up).headers = [(acaoH, star)]) ∨
    ((tsHandler rq up).status = 200 ∧
      (tsHandler rq up).headers = tsOkHeaders) := by
  by_cases hm : rq.method = "OPTIONS".data
  · left
    refine ⟨hm, ?_⟩
    unfold tsHandler
    rw [if_pos hm]
  · right
    cases hv : tsValidate rq with
    | inl r =>
      left
      rw [tsHandler_eq_of_validate hm hv]
      exact tsValidate_inl hv
    | inr t =>
      right
      rw [tsHandler_eq_of_ok hm hv]
      exact tsFetchPhase_cases t up

/-- C7 as stated is false for the src ts-proxy endpoint: it has no URL
parse check, so an unparseable `url` value (here `http://`) reaches
`fetch`, whose thrown `TypeError` the catch converts into HTTP 500 — not
the claimed 400. -/
theorem C7_counterexample :
    safeCreateURL ("http://".data) none = none ∧
    (tsHandler ⟨"GET".data, some ("http://".data), none,
        "https://proxy.local".data⟩ (Upstream.resp 200 [] [])).status = 500 ∧
    (tsHandler ⟨"GET".data, some ("http://".data), none,
        "https://proxy.local".data⟩ (Upstream.resp 200 [] [])).status ≠ 400 := by
  decide

/-- C7 amended: on both endpoints a missing OR empty `url` (JS falsiness
of the empty string) gives 400 "URL parameter is required"; a
present-and-nonempty `headers` value that is not valid JSON gives 400
"Invalid headers format" on both endpoints, while an EMPTY `headers`
value is treated like an absent one (the `headersParam ? … : \x7b\x7d`
ternary) and validation proceeds with `\x7b\x7d`; an unparseable nonempty
`url` value gives 400 "Invalid target URL: …" on m3u8-proxy only — the
src ts-proxy has no URL parse check and instead fails with HTTP 500 when
`fetch` throws. -/
theorem C7_amended (rq : Req) (up : Upstream) (hm : rq.method ≠ "OPTIONS".data) :
    (rq.urlParam = none ∨ rq.urlParam = some [] →
      m3u8Handler rq up = ⟨400, "URL parameter is required".data, []⟩ ∧
      tsHandler rq up = ⟨400, "URL parameter is required".data, []⟩) ∧
    (∀ t hp, rq.urlParam = some t → t ≠ [] → rq.headersParam = some hp →
      hp ≠ [] → jsonValid hp = false →
      m3u8Handler rq up = ⟨400, "Invalid headers format".data, []⟩ ∧
      tsHandler rq up = ⟨400, "Invalid headers format".data, []⟩) ∧
    (rq.headersParam = some [] →
      headersBad rq = false ∧ hdrsJsonOf rq = "\x7b\x7d".data) ∧
    (∀ t, rq.urlParam = some t → t ≠ [] → headersBad rq = false →
      safeCreateURL t none = none →
      m3u8Handler rq up =
        ⟨400, "Invalid target URL: ".data ++ t, [(acaoH, star)]⟩ ∧
      (tsHandler rq up).status = 500) := by
  refine ⟨?_, ?_, ?_, ?_⟩
  · rintro (hu | hu)
    · exact ⟨m3u8Handler_eq_of_validate hm (m3u8Validate_noUrl hu),
        tsHandler_eq_of_validate hm (tsValidate_noUrl hu)⟩
    · exact ⟨m3u8Handler_eq_of_validate hm (m3u8Validate_emptyUrl hu),
        tsHandler_eq_of_validate hm (tsValidate_emptyUrl hu)⟩
  · intro t hp hu hne hhp hpne hjv
    have hb : headersBad rq = true := by
      unfold headersBad
      rw [hhp]
      show (if hp = [] then false else Bool.not (jsonValid hp)) = true
      rw [if_neg hpne]
      show Bool.not (jsonValid hp) = true
      rw [hjv]
      rfl
    exact ⟨m3u8Handler_eq_of_validate hm (m3u8Validate_badHeaders hu hne hb),
      tsHandler_eq_of_validate hm (tsValidate_badHeaders hu hne hb)⟩
  · intro hhp
    constructor
    · unfold headersBad
      rw [hhp]
      show (if ([] : Str) = [] then false else Bool.not (jsonValid [])) = false
      rw [if_pos rfl]
    · unfold hdrsJsonOf
      rw [hhp]
      show (if ([] : Str) = [] then "\x7b\x7d".data else jsonStrip []) = "\x7b\x7d".data
      rw [if_pos rfl]
  · intro t hu hne hb hv
    refine ⟨m3u8Handler_eq_of_validate hm (m3u8Validate_badTarget hu hne hb hv), ?_⟩
    rw [tsHandler_eq_of_ok hm (tsValidate_ok hu hne hb)]
    unfold tsFetchPhase
    rw [hv]

/-- C7 amended witness: concrete requests exercising the missing-url 400
and the invalid-target 400/500 divergence. -/
theorem C7_amended_witness :
    m3u8Handler ⟨"GET".data, none, none, "https://proxy.local".data⟩
        (Upstream.resp 200 [] []) =
      ⟨400, "URL parameter is required".data, []⟩ ∧
    m3u8Handler ⟨"GET".data, some ("http://".data), none,
        "https://proxy.local".data⟩ (Upstream.resp 200 [] []) =
      ⟨400, "Invalid target URL: ".data ++ "http://".data, [(acaoH, star)]⟩ :=
  ⟨((C7_amended ⟨"GET".data, none, none, "https://proxy.local".data⟩
      (Upstream.resp 200 [] []) (by decide)).1 (Or.inl rfl)).1,
    ((C7_amended ⟨"GET".data, some ("http://".data), none,
        "https://proxy.local".data⟩ (Upstream.resp 200 [] [])
      (by decide)).2.2.2 ("http://".data) rfl (by decide) (by decide)
      (by decide)).1⟩

/-- C8 as stated is false: the missing-url 400 response of the m3u8
endpoint is constructed with no headers at all, so it carries none of the
CORS headers. -/
theorem C8_counterexample :
    (m3u8Handler ⟨"GET".data, none, none, "https://proxy.local".data⟩
        (Upstream.resp 200 [] [])).status = 400 ∧
    (m3u8Handler ⟨"GET".data, none, none, "https://proxy.local".data⟩
        (Upstream.resp 200 [] [])).headers = [] ∧
    findHdr acaoH
      (m3u8Handler ⟨"GET".data, none, none, "https://proxy.local".data⟩
        (Upstream.resp 200 [] [])).headers = none := by
  decide

/-- C8 amended: on an OPTIONS request both endpoints return the shared
preflight response, whose `Access-Control-Allow-Origin` and
`-Allow-Headers` are `*` but whose `-Allow-Methods` is `GET, OPTIONS`,
not `*`; every non-400 response carries
`Access-Control-Allow-Origin: *`; a 400 response is exactly one of: the
missing-url or invalid-headers 400, built with no headers at all (so no
CORS headers), or — on the m3u8 endpoint only — the invalid-target 400,
which carries `Access-Control-Allow-Origin: *` and nothing else; the
full three-star CORS set appears on non-OPTIONS success responses. -/
theorem C8_amended (rq : Req) (up : Upstream) :
    (rq.method = "OPTIONS".data →
      m3u8Handler rq up = optionsResp ∧ tsHandler rq up = optionsResp ∧
      findHdr acaoH optionsResp.headers = some star ∧
      findHdr acamH optionsResp.headers = some ("GET, OPTIONS".data) ∧
      findHdr acahH optionsResp.headers = some star) ∧
    ((m3u8Handler rq up).status ≠ 400 →
      findHdr acaoH (m3u8Handler rq up).headers = some star) ∧
    ((m3u8Handler rq up).status = 400 →
      m3u8Handler rq up = ⟨400, "URL parameter is required".data, []⟩ ∨
      m3u8Handler rq up = ⟨400, "Invalid headers format".data, []⟩ ∨
      ∃ t, m3u8Handler rq up =
        ⟨400, "Invalid target URL: ".data ++ t, [(acaoH, star)]⟩) ∧
    (rq.method ≠ "OPTIONS".data → (m3u8Handler rq up).status = 200 →
      (m3u8Handler rq up).headers = m3u8OkHeaders) ∧
    ((tsHandler rq up).status ≠ 400 →
      findHdr acaoH (tsHandler rq up).headers = some star) ∧
    ((tsHandler rq up).status = 400 →
      tsHandler rq up = ⟨400, "URL parameter is required".data, []⟩ ∨
      tsHandler rq up = ⟨400, "Invalid headers format".data, []⟩) ∧
    (rq.method ≠ "OPTIONS".data → (tsHandler rq up).status = 200 →
      (tsHandler rq up).headers = tsOkHeaders) := by
  refine ⟨?_, ?_, ?_, ?_, ?_, ?_, ?_⟩
  · intro hm
    refine ⟨?_, ?_, rfl, rfl, rfl⟩
    · unfold m3u8Handler
      rw [if_pos hm]
    · unfold tsHandler
      rw [if_pos hm]
  · intro hne
    rcases m3u8Handler_enum rq up with ⟨_, he⟩ | ⟨hs, _⟩ | ⟨_, hh⟩ | ⟨_, hh⟩
    · rw [he]; rfl
    · exact absurd hs hne
    · rw [hh]; rfl
    · rw [hh]; rfl
  · intro h400
    by_cases hm : rq.method = "OPTIONS".data
    · have he : m3u8Handler rq up = optionsResp := by
        unfold m3u8Handler
        rw [if_pos hm]
      rw [he] at h400
      exact absurd h400 (by decide)
    · cases hv : m3u8Validate rq with
      | inl r =>
        have he := @m3u8Handler_eq_of_validate rq up r hm hv
        rcases m3u8Validate_inl_cases hv with rfl | rfl | ⟨t, rfl⟩
        · exact Or.inl he
        · exact Or.inr (Or.inl he)
        · exact Or.inr (Or.inr ⟨t, he⟩)
      | inr v =>
        rw [m3u8Handler_eq_of_ok hm hv] at h400
        rcases m3u8FetchPhase_cases rq v up with ⟨hs, _⟩ | ⟨hs, _⟩ <;> omega
  · intro hm h200
    rcases m3u8Handler_enum rq up with ⟨hmo, _⟩ | ⟨hs, _⟩ | ⟨hs, _⟩ | ⟨_, hh⟩
    · exact absurd hmo hm
    · rw [hs] at h200; exact absurd h200 (by decide)
    · rw [hs] at h200; exact absurd h200 (by decide)
    · exact hh
  · intro hne
    rcases tsHandler_enum rq up with ⟨_, he⟩ | ⟨hs, _⟩ | ⟨_, hh⟩ | ⟨_, hh⟩
    · rw [he]; rfl
    · exact absurd hs hne
    · rw [hh]; rfl
    · rw [hh]; rfl
  · intro h400
    by_cases hm : rq.method = "OPTIONS".data
    · have he : tsHandler rq up = optionsResp := by
        unfold tsHandler
        rw [if_pos hm]
      rw [he] at h400
      exact absurd h400 (by decide)
    · cases hv : tsValidate rq with
      | inl r =>
        have he := @tsHandler_eq_of_validate rq up r hm hv
        rcases tsValidate_inl_cases hv with rfl | rfl
        · exact Or.inl he
        · exact Or.inr he
      | inr t =>
        rw [tsHandler_eq_of_ok hm hv] at h400
        rcases tsFetchPhase_cases t up with ⟨hs, _⟩ | ⟨hs, _⟩ <;> omega
  · intro hm h200
    rcases tsHandler_enum rq up with ⟨hmo, _⟩ | ⟨hs, _⟩ | ⟨hs, _⟩ | ⟨_, hh⟩
    · exact absurd hmo hm
    · rw [hs] at h200; exact absurd h200 (by decide)
    · rw [hs] at h200; exact absurd h200 (by decide)
    · exact hh

/-- C8 amended witness: the OPTIONS preflight with its `GET, OPTIONS`
allow-methods, the CORS origin header on a 500 error response, the
missing-url 400 record, and the full set on a success response. -/
theorem C8_amended_witness :
    (m3u8Handler ⟨"OPTIONS".data, none, none, "https://proxy.local".data⟩
        (Upstream.resp 200 [] []) = optionsResp ∧
      tsHandler ⟨"OPTIONS".data, none, none, "https://proxy.local".data⟩
        (Upstream.resp 200 [] []) = optionsResp ∧
      findHdr acaoH optionsResp.headers = some star ∧
      findHdr acamH optionsResp.headers = some ("GET, OPTIONS".data) ∧
      findHdr acahH optionsResp.headers = some star) ∧
    findHdr acaoH
      (m3u8Handler ⟨"GET".data, some ("https://o.example/x".data), none,
          "https://proxy.local".data⟩
        (Upstream.resp 404 ("Not Found".data) [])).headers = some star ∧
    (m3u8Handler ⟨"GET".data, none, none, "https://proxy.local".data⟩
        (Upstream.resp 200 [] []) =
        ⟨400, "URL parameter is required".data, []⟩ ∨
      m3u8Handler ⟨"GET".data, none, none, "https://proxy.local".data⟩
        (Upstream.resp 200 [] []) = ⟨400, "Invalid headers format".data, []⟩ ∨
      ∃ t, m3u8Handler ⟨"GET".data, none, none, "https://proxy.local".data⟩
        (Upstream.resp 200 [] []) =
          ⟨400, "Invalid target URL: ".data ++ t, [(acaoH, star)]⟩) ∧
    (m3u8Handler ⟨"GET".data, some ("https://o.example/x".data), none,
          "https://proxy.local".data⟩
        (Upstream.resp 200 [] ("#EXTM3U".data))).headers = m3u8OkHeaders :=
  ⟨(C8_amended ⟨"OPTIONS".data, none, none, "https://proxy.local".data⟩
      (Upstream.resp 200 [] [])).1 rfl,
    (C8_amended ⟨"GET".data, some ("https://o.example/x".data), none,
      "https://proxy.local".data⟩ (Upstream.resp 404 ("Not Found".data) [])).2.1
      (by decide),
    (C8_amended ⟨"GET".data, none, none, "https://proxy.local".data⟩
      (Upstream.resp 200 [] [])).2.2.1 (by decide),
    (C8_amended ⟨"GET".data, some ("https://o.example/x".data), none,
      "https://proxy.local".data⟩
      (Upstream.resp 200 [] ("#EXTM3U".data))).2.2.2.1 (by decide) (by decide)⟩

/-- C9: when the target validates but the upstream returns a non-2xx
status, both endpoints respond HTTP 500 with the upstream status code
embedded in the message. -/
theorem C9_upstream_non2xx (rq : Req) (t v : Str) (st : Nat) (stx ubody : Str)
    (hm : rq.method ≠ "OPTIONS".data) (hu : rq.urlParam = some t)
    (hb : headersBad rq = false) (hv : safeCreateURL t none = some v)
    (hok : isOk st = false) :
    (m3u8Handler rq (Upstream.resp st stx ubody)).status = 500 ∧
    containsSub (natToStr st)
      (m3u8Handler rq (Upstream.resp st stx ubody)).body = true ∧
    (tsHandler rq (Upstream.resp st stx ubody)).status = 500 ∧
    containsSub (natToStr st)
      (tsHandler rq (Upstream.resp st stx ubody)).body = true := by
  have hne : t ≠ [] := ne_nil_of_parses hv
  have h1 : m3u8Handler rq (Upstream.resp st stx ubody) =
      ⟨500, "Failed to fetch M3U8: ".data ++ natToStr st ++ ' ' :: stx,
        [(acaoH, star)]⟩ := by
    rw [m3u8Handler_eq_of_ok hm (m3u8Validate_ok hu hne hb hv)]
    simp only [m3u8FetchPhase]
    rw [if_neg (by simp [hok])]
  have h2 : tsHandler rq (Upstream.resp st stx ubody) =
      ⟨500, "Failed to fetch TS file: ".data ++ natToStr st ++ ' ' :: stx,
        [(acaoH, star)]⟩ := by
    rw [tsHandler_eq_of_ok hm (tsValidate_ok hu hne hb)]
    unfold tsFetchPhase
    rw [hv]
    show tsUpstreamResp (Upstream.resp st stx ubody) = _
    simp only [tsUpstreamResp]
    rw [if_neg (by simp [hok])]
  rw [h1, h2]
  refine ⟨rfl, ?_, rfl, ?_⟩
  · exact containsSub_of_append (natToStr st)
      ("Failed to fetch M3U8: ".data) (' ' :: stx)
  · exact containsSub_of_append (natToStr st)
      ("Failed to fetch TS file: ".data) (' ' :: stx)

/-- C9 witness: an origin 404 yields an HTTP 500 whose body contains
"404". -/
theorem C9_upstream_non2xx_witness :
    (m3u8Handler ⟨"GET".data, some ("https://o.example/x".data), none,
        "https://proxy.local".data⟩
      (Upstream.resp 404 ("Not Found".data) [])).status = 500 ∧
    containsSub ("404".data)
      (m3u8Handler ⟨"GET".data, some ("https://o.example/x".data), none,
          "https://proxy.local".data⟩
        (Upstream.resp 404 ("Not Found".data) [])).body = true := by
  have h := C9_upstream_non2xx
    ⟨"GET".data, some ("https://o.example/x".data), none,
      "https://proxy.local".data⟩
    ("https://o.example/x".data) ("https://o.example/x".data)
    404 ("Not Found".data) [] (by decide) rfl (by decide) (by decide)
    (by decide)
  refine ⟨h.1, ?_⟩
  rw [show ("404".data : Str) = natToStr 404 by decide]
  exact h.2.1

/-- C10: target-URL validation enforces no scheme restriction — any value
that parses as a URL (including `ftp:` and `data:` schemes) passes
validation on the m3u8 endpoint and on the unnamed ts variant, and the
handler proceeds to the fetch phase with the parsed URL, never returning
HTTP 400. -/
theorem C10_no_scheme_restriction (rq : Req) (t u : Str)
    (hu : rq.urlParam = some t) (hb : headersBad rq = false)
    (hp : safeCreateURL t none = some u) :
    m3u8Validate rq = Sum.inr u ∧ tsAltValidate rq = Sum.inr u ∧
    (∀ up, rq.method ≠ "OPTIONS".data →
      m3u8Handler rq up = m3u8FetchPhase rq u up ∧
      (m3u8Handler rq up).status ≠ 400) := by
  have hne : t ≠ [] := ne_nil_of_parses hp
  refine ⟨m3u8Validate_ok hu hne hb hp, tsAltValidate_ok hu hne hb hp, ?_⟩
  intro up hm
  refine ⟨m3u8Handler_eq_of_ok hm (m3u8Validate_ok hu hne hb hp), ?_⟩
  intro h400
  rw [m3u8Handler_eq_of_ok hm (m3u8Validate_ok hu hne hb hp)] at h400
  rcases m3u8FetchPhase_cases rq u up with ⟨hs, _⟩ | ⟨hs, _⟩ <;> omega

/-- C10 witness: `ftp:` and `data:` targets pass validation. -/
theorem C10_no_scheme_restriction_witness :
    m3u8Validate ⟨"GET".data, some ("ftp://example.com/f".data), none,
        "https://proxy.local".data⟩ = Sum.inr ("ftp://example.com/f".data) ∧
    m3u8Validate ⟨"GET".data, some ("data:text/plain,x".data), none,
        "https://proxy.local".data⟩ = Sum.inr ("data:text/plain,x".data) ∧
    tsAltValidate ⟨"GET".data, some ("ftp://example.com/f".data), none,
        "https://proxy.local".data⟩ = Sum.inr ("ftp://example.com/f".data) :=
  ⟨(C10_no_scheme_restriction ⟨"GET".data, some ("ftp://example.com/f".data),
      none, "https://proxy.local".data⟩ ("ftp://example.com/f".data)
      ("ftp://example.com/f".data) rfl (by decide) (by decide)).1,
    (C10_no_scheme_restriction ⟨"GET".data, some ("data:text/plain,x".data),
      none, "https://proxy.local".data⟩ ("data:text/plain,x".data)
      ("data:text/plain,x".data) rfl (by decide) (by decide)).1,
    (C10_no_scheme_restriction ⟨"GET".data, some ("ftp://example.com/f".data),
      none, "https://proxy.local".data⟩ ("ftp://example.com/f".data)
      ("ftp://example.com/f".data) rfl (by decide) (by decide)).2.1⟩

end PPStream
